import Mathlib

/-!
Shallow embedding of the `formatvalidatorv2` repository: the DOCX structure
extractor and APA rule evaluator implemented in `src/pages/api/validate.js`
(class `APAValidator` and the HTTP `handler`) and the client-side
reimplementation in `src/pages/index.js` (class `ClientAPAValidator`).

Modelling conventions:
* JS strings are Lean `String`s; all scanning is done on `List Char`.
  The inputs exercised by the validator are ASCII, so ASCII-only
  `Char.toLower` coincides with JS `toLowerCase` on every string we build.
* The external archive/XML libraries (`adm-zip`, `xmldom`) are modelled by
  their observable output: an input buffer either fails to open (carrying the
  library error message) or yields the raw XML part strings together with the
  parsed DOM views that the extractor methods consume
  (`getElementsByTagName` projections).
* JS regexes used by the source are hand-compiled to executable scanners with
  the same leftmost-match and backtracking-preference semantics; each scanner
  is named after the regex it implements and documented with it.
* JS numbers reaching comparisons are integers or integer halves
  (`parseInt(x)/2`); font sizes are therefore represented exactly in
  half-points (`sizeHp`), with `NaN` as `none`.
-/

/-- JS `\s` / `trim` whitespace restricted to the ASCII range (the only
characters the validator's inputs contain). -/
def jsIsWs (c : Char) : Bool :=
  c = ' ' || c = '\t' || c = '\n' || c = '\r' || c = '\x0b' || c = '\x0c'

def isUpperAZ (c : Char) : Bool := 'A' ≤ c && c ≤ 'Z'

def isLowerAZ (c : Char) : Bool := 'a' ≤ c && c ≤ 'z'

def isAsciiLetter (c : Char) : Bool := isUpperAZ c || isLowerAZ c

def isDigit09 (c : Char) : Bool := '0' ≤ c && c ≤ '9'

/-- JS `String.prototype.toLowerCase` on the ASCII strings the code handles. -/
def lowerS (s : String) : String := ⟨s.data.map Char.toLower⟩

def lowerL (l : List Char) : List Char := l.map Char.toLower

/-- Exact prefix test on character lists. -/
def leadsWith : List Char → List Char → Bool
  | [], _ => true
  | _ :: _, [] => false
  | p :: ps, c :: cs => p = c && leadsWith ps cs

/-- Case-insensitive prefix test; the pattern is supplied pre-lowercased. -/
def ciLeadsWith : List Char → List Char → Bool
  | [], _ => true
  | _ :: _, [] => false
  | p :: ps, c :: cs => p = Char.toLower c && ciLeadsWith ps cs

/-- Index of the first exact occurrence of `pat` (JS `indexOf`). -/
def findCS (pat : List Char) : List Char → Option Nat
  | [] => if pat.isEmpty then some 0 else none
  | c :: rest =>
    if leadsWith pat (c :: rest) then some 0
    else (findCS pat rest).map (· + 1)

/-- Index of the first case-insensitive occurrence of the pre-lowercased
pattern `pat`. -/
def findCI (pat : List Char) : List Char → Option Nat
  | [] => if pat.isEmpty then some 0 else none
  | c :: rest =>
    if ciLeadsWith pat (c :: rest) then some 0
    else (findCI pat rest).map (· + 1)

/-- JS `String.prototype.includes`. -/
def jsIncludes (s sub : String) : Bool := (findCS sub.data s.data).isSome

def containsCI (s sub : String) : Bool := (findCI (lowerL sub.data) s.data).isSome

/-- JS `String.prototype.trim` (ASCII whitespace). -/
def jsTrimL (l : List Char) : List Char :=
  ((l.dropWhile jsIsWs).reverse.dropWhile jsIsWs).reverse

def jsTrim (s : String) : String := ⟨jsTrimL s.data⟩

/-- JS `s.substring(a, b)` for `a ≤ b` (the only way the source calls it). -/
def jsSubstring (s : String) (a b : Nat) : String := ⟨(s.data.drop a).take (b - a)⟩

def digitsToNat (l : List Char) : Nat :=
  l.foldl (fun acc c => acc * 10 + (c.toNat - 48)) 0

/-- JS `parseInt` in base 10 on an attribute value: skip whitespace, optional
sign, then leading decimal digits; anything else is `NaN` (`none`).  A missing
attribute (`getAttribute` returning null/empty) is also `NaN` after coercion. -/
def jsParseInt (s : Option String) : Option Int :=
  match s with
  | none => none
  | some str =>
    let l := str.data.dropWhile jsIsWs
    let core := fun (neg : Bool) (l : List Char) =>
      let ds := l.takeWhile isDigit09
      if ds.isEmpty then (none : Option Int)
      else if neg then some (-(digitsToNat ds : Int)) else some (digitsToNat ds : Int)
    match l with
    | '-' :: rest => core true rest
    | '+' :: rest => core false rest
    | _ => core false l

/-- JS `a.split('\n')`. -/
def splitNl (l : List Char) : List (List Char) :=
  match l with
  | [] => [[]]
  | '\n' :: rest => [] :: splitNl rest
  | c :: rest =>
    match splitNl rest with
    | [] => [[c]]
    | seg :: segs => (c :: seg) :: segs

/-- JS string comparison `a < b`: lexicographic on code units. -/
def jsStrLtL : List Char → List Char → Bool
  | [], [] => false
  | [], _ :: _ => true
  | _ :: _, [] => false
  | a :: as', b :: bs' =>
    if a.toNat < b.toNat then true
    else if b.toNat < a.toNat then false
    else jsStrLtL as' bs'

def jsStrLt (a b : String) : Bool := jsStrLtL a.data b.data

def strConcat : List String → String
  | [] => ""
  | s :: rest => s ++ strConcat rest

/-- Render a half-point font size the way JS prints the number
`parseInt(v)/2` (`12`, `11.5`, `NaN`). -/
def hpToString (hp : Option Int) : String :=
  match hp with
  | none => "NaN"
  | some n =>
    if n % 2 = 0 then toString (n / 2)
    else toString ((n - 1) / 2) ++ ".5"

/-! ## Data model

The parsed-DOM views consumed by the extractor methods of `APAValidator`.
`Option String` attribute values model `getAttribute` (missing ⇒ falsy). -/

/-- One `w:spacing` element with its `w:lineRule` / `w:line` attributes. -/
structure SpacingElem where
  lineRule : Option String
  line : Option String
  deriving DecidableEq, Repr

/-- One `w:p` paragraph as seen through `getElementsByTagName`: the first
`w:pStyle` element (with its `w:val`), the `w:t` text contents in order, the
first `w:jc` element (with its `w:val`), and presence of `w:b` / `w:i`. -/
structure WPara where
  pStyleVal : Option (Option String)
  wtTexts : List (Option String)
  jcVal : Option (Option String)
  hasBold : Bool
  hasItalic : Bool
  deriving DecidableEq, Repr

/-- The main document DOM: paragraphs (carrying every `w:t` run-text node in
document order) and the `w:spacing` elements. -/
structure WDoc where
  paras : List WPara
  spacings : List SpacingElem
  deriving DecidableEq, Repr

/-- The styles DOM: first `w:rFonts` element's `w:ascii` attribute, first
`w:sz` element's `w:val` attribute, and the `w:spacing` elements. -/
structure WStyles where
  rFontsAscii : Option (Option String)
  szVal : Option (Option String)
  spacings : List SpacingElem
  deriving DecidableEq, Repr

/-- A successfully opened document package: the raw XML part strings (missing
optional parts already defaulted to `''` by `readAsText(...) || ''`) plus the
parsed DOM views of the main document and styles parts. -/
structure Docx where
  documentXml : String
  stylesXml : String
  headerXml : String
  footerXml : String
  doc : WDoc
  styles : WStyles
  deriving DecidableEq, Repr

/-- Outcome of handing the uploaded byte buffer to `new AdmZip(buffer)` /
`readAsText('word/document.xml')`: either the archive opens and the main part
parses (`ok`), or the library throws with a message (`fail`). -/
inductive BufferParse where
  | fail (msg : String)
  | ok (d : Docx)
  deriving DecidableEq, Repr

/-- Detected dominant font: family name and size in half-points
(`parseInt(w:sz@val)`, `none` = `NaN`; the JS value is `sizeHp / 2` points). -/
structure FontInfo where
  font : String
  sizeHp : Option Int
  deriving DecidableEq, Repr

structure SpacingInfo where
  isDoubleSpaced : Bool
  deriving DecidableEq, Repr

/-- One extracted heading. -/
structure Heading where
  text : String
  level : Nat
  isCentered : Bool
  isBold : Bool
  isItalic : Bool
  deriving DecidableEq, Repr, Inhabited

/-- The normalized document structure handed to the rule evaluator
(`parseDocxStructure`'s return value, minus the DOM objects kept only for
debugging). -/
structure DocStructure where
  documentXml : String
  stylesXml : String
  headerXml : String
  footerXml : String
  text : String
  fontInfo : FontInfo
  spacingInfo : SpacingInfo
  headings : List Heading
  pageNumbers : Bool
  deriving DecidableEq, Repr

inductive Severity where
  | error
  | warning
  | suggestion
  deriving DecidableEq, Repr

/-- A passing finding (`results.passing` entries). -/
structure PassItem where
  message : String
  details : String
  deriving DecidableEq, Repr

/-- An issue finding (`results.issues` entries). -/
structure Issue where
  id : String
  severity : Severity
  message : String
  details : String
  deriving DecidableEq, Repr

/-- The mutable `results` record threaded through the validator methods. -/
structure Results where
  filename : String
  issues : List Issue
  passing : List PassItem
  score : Int
  deriving DecidableEq, Repr

def Results.init (filename : String) : Results :=
  { filename := filename, issues := [], passing := [], score := 0 }

def Results.addPass (r : Results) (p : PassItem) : Results :=
  { r with passing := r.passing ++ [p] }

def Results.addIssue (r : Results) (i : Issue) : Results :=
  { r with issues := r.issues ++ [i] }

/-! ## Structure extractor (`APAValidator.parseDocxStructure` and helpers) -/

/-- JS `attr || defaultVal` on a `getAttribute` result (null and `''` are
falsy). -/
def jsOrDefault (a : Option String) (d : String) : String :=
  match a with
  | some s => if s = "" then d else s
  | none => d

/-- JS `attr || ''`. -/
def jsOrEmpty (a : Option String) : String := (jsOrDefault a "")

/-- Every `w:t` node of the document in document order
(`doc.getElementsByTagName('w:t')`). -/
def allWt (doc : WDoc) : List (Option String) := (doc.paras.map (·.wtTexts)).flatten

/-- The accumulation loop `text += textElements[i].textContent || ''`. -/
def extractTextLoop : List (Option String) → String → String
  | [], acc => acc
  | t :: ts, acc => extractTextLoop ts (acc ++ jsOrEmpty t)

/-- `APAValidator.extractText`: concatenate every `w:t` text content in
document order (no separator). -/
def extractText (doc : WDoc) : String := extractTextLoop (allWt doc) ""

/-- `APAValidator.extractFontInfo`.  The document-level `w:rFonts`/`w:sz`
lists are collected in the source but never read, so they do not appear here.
`size` is `parseInt(w:sz@w:val) / 2`; we keep it in half-points. -/
def extractFontInfo (stylesDoc : WStyles) : FontInfo :=
  let font := match stylesDoc.rFontsAscii with
    | some attr => jsOrDefault attr "Times New Roman"
    | none => "Times New Roman"
  let sizeHp : Option Int := match stylesDoc.szVal with
    | some attr => jsParseInt attr
    | none => some 24
  { font := font, sizeHp := sizeHp }

/-- One `w:spacing` element signals double spacing when `w:line="480"` or
`w:lineRule="auto"`. -/
def spacingDouble (e : SpacingElem) : Bool := e.line = some "480" || e.lineRule = some "auto"

/-- `APAValidator.extractSpacingInfo`: styles-part spacing elements first,
then document ones; any marker sets the flag. -/
def extractSpacingInfo (stylesDoc : WStyles) (documentDoc : WDoc) : SpacingInfo :=
  { isDoubleSpaced := (stylesDoc.spacings ++ documentDoc.spacings).any spacingDouble }

/-- `APAValidator.extractParagraphText`. -/
def extractParagraphText (p : WPara) : String := extractTextLoop p.wtTexts ""

/-- Scanner for `/heading\s*(\d+)/i`: first case-insensitive `heading`
followed by optional whitespace and at least one digit; captures the digit
run. -/
def srvHeadingLvl : List Char → Option Nat
  | [] => none
  | c :: rest =>
    if ciLeadsWith "heading".data (c :: rest) then
      let r2 := ((c :: rest).drop 7).dropWhile jsIsWs
      let ds := r2.takeWhile isDigit09
      if ds.isEmpty then srvHeadingLvl rest else some (digitsToNat ds)
    else srvHeadingLvl rest

/-- `APAValidator.extractHeadingLevel`: trailing digit of the style name,
default 1. -/
def extractHeadingLevel (styleName : String) : Nat :=
  (srvHeadingLvl styleName.data).getD 1

/-- `APAValidator.extractHeadings`: paragraphs whose first `w:pStyle` value
contains `heading` (case-insensitively). -/
def extractHeadings (doc : WDoc) : List Heading :=
  doc.paras.filterMap (fun p =>
    match p.pStyleVal with
    | none => none
    | some attr =>
      let styleName := jsOrEmpty attr
      if jsIncludes (lowerS styleName) "heading" then
        some { text := jsTrim (extractParagraphText p)
               level := extractHeadingLevel styleName
               isCentered := (match p.jcVal with
                              | some jcAttr => jcAttr = some "center"
                              | none => false)
               isBold := p.hasBold
               isItalic := p.hasItalic }
      else none)

/-- Chained case-insensitive search: each pattern must occur after the end of
the previous one. -/
def seqFindCI : List (List Char) → List Char → Bool
  | [], _ => true
  | pat :: pats, cs =>
    match findCI pat cs with
    | some i => seqFindCI pats (cs.drop (i + pat.length))
    | none => false

/-- Scanner for `/w:fldChar.*?w:fldCharType="begin".*?PAGE.*?w:fldCharType="end"/i`:
`.` does not cross line breaks, so the whole match lives on one line. -/
def fldCharPage (line : List Char) : Bool :=
  seqFindCI ["w:fldchar".data, "w:fldchartype=\"begin\"".data, "page".data,
             "w:fldchartype=\"end\"".data] line

/-- `APAValidator.detectPageNumbers` over the concatenated raw XML.  The third
pattern `/PAGE\s*\\*/i` has only zero-or-more quantifiers after `PAGE`, so it
reduces to a case-insensitive `PAGE` substring test. -/
def detectPageNumbers (documentXml headerXml footerXml : String) : Bool :=
  let allXml := documentXml ++ headerXml ++ footerXml
  (splitNl allXml.data).any fldCharPage
    || containsCI allXml "<w:pgNum"
    || containsCI allXml "PAGE"

/-- `APAValidator.parseDocxStructure` (DOM objects kept in the source record
are only re-consumed through the fields below). -/
def parseDocxStructure (z : Docx) : DocStructure :=
  { documentXml := z.documentXml
    stylesXml := z.stylesXml
    headerXml := z.headerXml
    footerXml := z.footerXml
    text := extractText z.doc
    fontInfo := extractFontInfo z.styles
    spacingInfo := extractSpacingInfo z.styles z.doc
    headings := extractHeadings z.doc
    pageNumbers := detectPageNumbers z.documentXml z.headerXml z.footerXml }

/-! ## Rule evaluator (`APAValidator.validate*`)

Each method destructures the fields of `docStructure` it uses; the embedding
passes exactly those fields. -/

/-- The fixed acceptable font table (name, size in points). -/
def acceptableFonts : List (String × Int) :=
  [("Times New Roman", 12), ("Calibri", 11), ("Arial", 11), ("Georgia", 11),
   ("Lucida Sans Unicode", 10)]

/-- `acceptableFonts.some(...)`: case-insensitive family containment and
exact size equality (`fontInfo.size === acceptable.size`, i.e. half-points
equal to twice the table size). -/
def isAcceptableFont (fi : FontInfo) : Bool :=
  acceptableFonts.any (fun p =>
    jsIncludes (lowerS fi.font) (lowerS p.1) && fi.sizeHp = some (2 * p.2))

/-- The passing finding of the font block. -/
def fontPassItem (fontInfo : FontInfo) : PassItem :=
  { message := "Font is correct: " ++ fontInfo.font ++ " " ++
      hpToString fontInfo.sizeHp ++ "pt"
    details := "Meets APA 7 font requirements" }

/-- The issue of the font block (severity `error` in the source). -/
def fontIssueItem (fontInfo : FontInfo) : Issue :=
  { id := "font-incorrect", severity := .error
    message := "Font \"" ++ fontInfo.font ++ " " ++
      hpToString fontInfo.sizeHp ++ "pt\" is not APA compliant"
    details := "Use Times New Roman 12pt, Calibri 11pt, Arial 11pt, Georgia 11pt, or Lucida Sans Unicode 10pt" }

def spacingPassItem : PassItem :=
  { message := "Document is properly double-spaced"
    details := "Line spacing follows APA 7 requirements" }

/-- The issue of the spacing block (severity `error` in the source). -/
def spacingIssueItem : Issue :=
  { id := "spacing-incorrect", severity := .error
    message := "Document is not double-spaced"
    details := "Set line spacing to double (2.0) throughout the entire document" }

def pageNumbersPassItem : PassItem :=
  { message := "Page numbers are present"
    details := "Page numbering follows APA requirements" }

def pageNumbersIssueItem : Issue :=
  { id := "page-numbers-missing", severity := .error
    message := "Page numbers are missing"
    details := "Insert page numbers in the top right corner of every page" }

/-- `APAValidator.validateGeneralFormatting`: font, spacing and page-number
blocks in source order. -/
def validateGeneralFormatting (fontInfo : FontInfo) (spacingInfo : SpacingInfo)
    (pageNumbers : Bool) (r : Results) : Results :=
  let r := if isAcceptableFont fontInfo then r.addPass (fontPassItem fontInfo)
    else r.addIssue (fontIssueItem fontInfo)
  let r := if spacingInfo.isDoubleSpaced then r.addPass spacingPassItem
    else r.addIssue spacingIssueItem
  if pageNumbers then r.addPass pageNumbersPassItem
  else r.addIssue pageNumbersIssueItem

/-- Scanner for `[A-Z][a-z]+\s+[A-Z][a-z]+` at the current position (the
character classes are disjoint, so the greedy quantifiers are
deterministic). -/
def namePatAt (cs : List Char) : Bool :=
  match cs with
  | c :: r =>
    isUpperAZ c &&
      (let lr := r.takeWhile isLowerAZ
       !lr.isEmpty &&
         (let r2 := r.drop lr.length
          let wr := r2.takeWhile jsIsWs
          !wr.isEmpty &&
            (match r2.drop wr.length with
             | c2 :: r3 => isUpperAZ c2 && !(r3.takeWhile isLowerAZ).isEmpty
             | [] => false)))
  | [] => false

def anyAfterNl (p : List Char → Bool) : List Char → Bool
  | [] => false
  | c :: rest => (if c = '\n' then p rest else false) || anyAfterNl p rest

/-- Multiline `^...` existence: the pattern holds at offset 0 or right after a
newline. -/
def anyLineStart (p : List Char → Bool) (cs : List Char) : Bool :=
  p cs || anyAfterNl p cs

/-- Scanner for `/By\s+[A-Z]/i` (the `i` flag makes `[A-Z]` match any ASCII
letter). -/
def byPatScan : List Char → Bool
  | [] => false
  | c :: rest =>
    (ciLeadsWith "by".data (c :: rest) &&
      (let r2 := ((c :: rest).drop 2)
       let wr := r2.takeWhile jsIsWs
       !wr.isEmpty &&
         (match r2.drop wr.length with
          | d :: _ => isAsciiLetter d
          | [] => false)))
    || byPatScan rest

def titleContentPass : PassItem :=
  { message := "Title page content detected"
    details := "Document appears to have a title page" }

def authorFoundPass : PassItem :=
  { message := "Author information found"
    details := "Title page includes author information" }

def authorMissingIssue : Issue :=
  { id := "author-missing", severity := .error
    message := "Author information missing from title page"
    details := "Include author name(s) on the title page" }

def institutionFoundPass : PassItem :=
  { message := "Institutional affiliation found"
    details := "Title page includes institutional information" }

def institutionMissingIssue : Issue :=
  { id := "institution-missing", severity := .warning
    message := "Institutional affiliation may be missing"
    details := "Include your university or institution on the title page" }

/-- `APAValidator.validateTitlePage` on the extracted text. -/
def validateTitlePage (text : String) (r : Results) : Results :=
  let firstPage := jsSubstring text 0 1500
  let r := if 10 < (jsTrim firstPage).length then r.addPass titleContentPass else r
  let hasAuthor := anyLineStart namePatAt firstPage.data
    || containsCI firstPage "Author" || byPatScan firstPage.data
  let r := if hasAuthor then r.addPass authorFoundPass
    else r.addIssue authorMissingIssue
  let hasInstitution := containsCI firstPage "university"
    || containsCI firstPage "college" || containsCI firstPage "school"
  if hasInstitution then r.addPass institutionFoundPass
  else r.addIssue institutionMissingIssue

/-- First position (in the suffix order) where `stop` fires; the text length
when none does (the `$` alternative). -/
def firstStop (stop : List Char → Bool) : List Char → Nat
  | [] => 0
  | c :: rest => if stop (c :: rest) then 0 else firstStop stop rest + 1

/-- Scanner for `Keyword\s*([\s\S]*?)(?:Stop…|$)`-shaped section regexes: the
match starts at the first case-insensitive `keyword`, the greedy `\s*` eats
the whitespace run, and the lazy capture ends at the first stop position (or
the end of the text). -/
def findSection (keyword : List Char) (stop : List Char → Bool)
    (text : List Char) : Option String :=
  match findCI keyword text with
  | none => none
  | some i =>
    let body := (text.drop (i + keyword.length)).dropWhile jsIsWs
    some ⟨body.take (firstStop stop body)⟩

/-- Stop alternatives of the server abstract regex:
`(?:Keywords?|Introduction|$)` (case-insensitive). -/
def stopAbstractSrv (cs : List Char) : Bool :=
  ciLeadsWith "keyword".data cs || ciLeadsWith "introduction".data cs

/-- Capture group of `/Abstract\s*([\s\S]*?)(?:Keywords?|Introduction|$)/i`. -/
def findAbstract (text : String) : Option String :=
  findSection "abstract".data stopAbstractSrv text.data

/-- JS `s.split(/\s+/)`: runs of whitespace separate segments; leading or
trailing whitespace produces empty boundary segments; `''` yields `['']`.
The first constructor argument is the current segment (reversed), `none`
while inside a separator run. -/
def splitWsAux : Option (List Char) → List Char → List (List Char)
  | some acc, [] => [acc.reverse]
  | none, [] => [[]]
  | some acc, c :: rest =>
    if jsIsWs c then acc.reverse :: splitWsAux none rest
    else splitWsAux (some (c :: acc)) rest
  | none, c :: rest =>
    if jsIsWs c then splitWsAux none rest
    else splitWsAux (some [c]) rest

def jsSplitWs (s : String) : List String :=
  (splitWsAux (some []) s.data).map (fun l => ⟨l⟩)

def abstractFoundPass : PassItem :=
  { message := "Abstract section found"
    details := "Document includes an abstract section" }

def abstractLenPass (wordCount : Nat) : PassItem :=
  { message := "Abstract word count is appropriate (" ++ toString wordCount ++ " words)"
    details := "Abstract length follows APA guidelines (150-250 words)" }

/-- The server-side too-long issue (severity `warning` in the source). -/
def abstractTooLongIssue (wordCount : Nat) : Issue :=
  { id := "abstract-too-long", severity := .warning
    message := "Abstract is too long (" ++ toString wordCount ++ " words)"
    details := "APA recommends 150-250 words for abstracts" }

/-- The server-side too-short issue (severity `suggestion`). -/
def abstractTooShortIssue (wordCount : Nat) : Issue :=
  { id := "abstract-too-short", severity := .suggestion
    message := "Abstract may be too short (" ++ toString wordCount ++ " words)"
    details := "Consider expanding to 150-250 words" }

/-- `APAValidator.validateAbstract`. -/
def validateAbstract (text : String) (r : Results) : Results :=
  match findAbstract text with
  | none => r
  | some body =>
    let r := r.addPass abstractFoundPass
    let abstractText := jsTrim body
    let wordCount := (jsSplitWs abstractText).length
    if 150 ≤ wordCount ∧ wordCount ≤ 250 then r.addPass (abstractLenPass wordCount)
    else if 250 < wordCount then r.addIssue (abstractTooLongIssue wordCount)
    else if wordCount < 150 ∧ 50 < wordCount then r.addIssue (abstractTooShortIssue wordCount)
    else r

/-- Reserved section titles excluded from content headings. -/
def reservedHeading (h : Heading) : Bool :=
  ["abstract", "references", "keywords"].any (fun s => s = lowerS h.text)

def contentHeadings (hs : List Heading) : List Heading :=
  hs.filter (fun h => !reservedHeading h)

/-- The issue pushed when a heading level is skipped
(`heading-hierarchy-${i}` at content index `i`). -/
def mkHierIssue (i : Nat) (previous current : Heading) : Issue :=
  { id := "heading-hierarchy-" ++ toString i, severity := .error
    message := "Heading level skipped"
    details := "Cannot jump from Level " ++ toString previous.level ++
      " to Level " ++ toString current.level ++ " (\"" ++ current.text ++ "\")" }

/-- The hierarchy loop `for (let i = 1; i < contentHeadings.length; i++)`. -/
def hierarchyIssues (ch : List Heading) : List Issue :=
  (List.range' 1 (ch.length - 1)).filterMap (fun i =>
    let current := ch.getD i default
    let previous := ch.getD (i - 1) default
    if previous.level + 1 < current.level then some (mkHierIssue i previous current)
    else none)

/-- `APAValidator.validateIndividualHeading`: the requirements table defines
entries only for levels 1–5 (all bold, level 1 also centered); other levels
return without findings. -/
def headingCenteredPass (heading : Heading) : PassItem :=
  { message := "Level " ++ toString heading.level ++ " heading is properly centered"
    details := "\"" ++ heading.text ++ "\" follows APA centering requirements" }

def headingNotCenteredIssue (heading : Heading) (index : Nat) : Issue :=
  { id := "heading-not-centered-" ++ toString index, severity := .error
    message := "Level " ++ toString heading.level ++ " heading should be centered"
    details := "\"" ++ heading.text ++ "\" should be centered according to APA format" }

def headingBoldPass (heading : Heading) : PassItem :=
  { message := "Level " ++ toString heading.level ++ " heading is properly bolded"
    details := "\"" ++ heading.text ++ "\" follows APA bold formatting" }

def headingNotBoldIssue (heading : Heading) (index : Nat) : Issue :=
  { id := "heading-not-bold-" ++ toString index, severity := .error
    message := "Level " ++ toString heading.level ++ " heading should be bold"
    details := "\"" ++ heading.text ++ "\" must be formatted in bold" }

def validateIndividualHeading (heading : Heading) (index : Nat) (r : Results) : Results :=
  if heading.level = 0 ∨ 5 < heading.level then r
  else
    let reqCentered := heading.level = 1
    let r := if reqCentered ∧ heading.isCentered then r.addPass (headingCenteredPass heading)
      else if reqCentered ∧ ¬heading.isCentered then
        r.addIssue (headingNotCenteredIssue heading index)
      else r
    if heading.isBold then r.addPass (headingBoldPass heading)
    else r.addIssue (headingNotBoldIssue heading index)

/-- `contentHeadings.forEach((heading, index) => ...)`. -/
def foldHeadings : List Heading → Nat → Results → Results
  | [], _, r => r
  | h :: rest, i, r => foldHeadings rest (i + 1) (validateIndividualHeading h i r)

/-- `APAValidator.validateHeadings` (destructures `{ headings }`). -/
def noHeadingsIssue : Issue :=
  { id := "no-headings", severity := .suggestion
    message := "No headings detected"
    details := "Consider using APA-style headings to organize your content" }

def headingsCountPass (n : Nat) : PassItem :=
  { message := "Document uses " ++ toString n ++ " heading(s)"
    details := "Headings help organize content according to APA style" }

def validateHeadings (headings : List Heading) (r : Results) : Results :=
  if headings.isEmpty then r.addIssue noHeadingsIssue
  else
    let ch := contentHeadings headings
    if ch.isEmpty then r
    else
      let r := r.addPass (headingsCountPass ch.length)
      let r := { r with issues := r.issues ++ hierarchyIssues ch }
      foldHeadings ch 0 r

/-! ### Citation scanners

Hand-compiled form of
`/\(([A-Za-z\s&,.-]+),\s*(\d{4}[a-z]?)(?:,\s*pp?\.\s*\d+(?:-\d+)?)?\)/g`
with JS backtracking preferences (greedy author run, optional pieces taken
first).  Each function returns the consumed length on success. -/

def citClassChar (c : Char) : Bool :=
  isAsciiLetter c || jsIsWs c || c = '&' || c = ',' || c = '.' || c = '-'

/-- `\d{4}` at the head. -/
def digits4 (cs : List Char) : Bool :=
  (cs.take 4).length = 4 && (cs.take 4).all isDigit09

def firstSome {α : Type} : List (Option α) → Option α
  | [] => none
  | some a :: _ => some a
  | none :: rest => firstSome rest

/-- Optional `-\d+` after the page digits; prefer taking it. -/
def dashCands (cs : List Char) (consumed : Nat) : List Nat :=
  match cs with
  | '-' :: rest =>
    let es := rest.takeWhile isDigit09
    if es.isEmpty then [consumed] else [consumed + 1 + es.length, consumed]
  | _ => [consumed]

/-- `\.\s*\d+(?:-\d+)?` at the head; candidate consumed lengths. -/
def pageCore (cs : List Char) (consumed : Nat) : List Nat :=
  match cs with
  | '.' :: rest =>
    let w := rest.takeWhile jsIsWs
    let afterW := rest.drop w.length
    let ds := afterW.takeWhile isDigit09
    if ds.isEmpty then []
    else dashCands (afterW.drop ds.length) (consumed + 1 + w.length + ds.length)
  | _ => []

/-- `,\s*pp?\.\s*\d+(?:-\d+)?` at the head (`pp` preferred over `p`). -/
def pageGrpCands (cs : List Char) : List Nat :=
  match cs with
  | ',' :: rest =>
    let w := rest.takeWhile jsIsWs
    let afterW := rest.drop w.length
    (match afterW with
     | 'p' :: 'p' :: r2 => pageCore r2 (1 + w.length + 2) ++ pageCore ('p' :: r2) (1 + w.length + 1)
     | 'p' :: r2 => pageCore r2 (1 + w.length + 1)
     | _ => [])
  | _ => []

def closeParen (cs : List Char) : Option Nat :=
  match cs with
  | ')' :: _ => some 1
  | _ => none

/-- Optional page group (preferred present) followed by `\)`. -/
def afterPage (cs : List Char) : Option Nat :=
  (firstSome ((pageGrpCands cs).map (fun n => (closeParen (cs.drop n)).map (n + ·))))
    <|> closeParen cs

/-- `[a-z]?` (preferred present) then the page group and `\)`. -/
def afterYearTail (cs : List Char) : Option Nat :=
  match cs with
  | c :: rest =>
    if isLowerAZ c then ((afterPage rest).map (· + 1)) <|> afterPage cs
    else afterPage cs
  | [] => none

/-- `\s*\d{4}` then the year tail. -/
def yearTail (cs : List Char) : Option Nat :=
  let w := cs.takeWhile jsIsWs
  let afterW := cs.drop w.length
  if digits4 afterW then (afterYearTail (afterW.drop 4)).map (fun n => w.length + 4 + n)
  else none

/-- Try author-run splits of length `k, k-1, …, 1`, each followed by `,` and
the year tail. -/
def authorSplit : Nat → List Char → Option Nat
  | 0, _ => none
  | k + 1, cs =>
    (match cs.drop (k + 1) with
     | ',' :: rest => (yearTail rest).map (fun n => (k + 1) + 1 + n)
     | _ => none) <|> authorSplit k cs

/-- Full citation match at the current position. -/
def citAt (cs : List Char) : Option Nat :=
  match cs with
  | '(' :: rest => (authorSplit (rest.takeWhile citClassChar).length rest).map (· + 1)
  | _ => none

/-- Count the non-overlapping `g`-flag matches, leftmost first. -/
def citScanCount (fuel : Nat) (cs : List Char) : Nat :=
  match fuel with
  | 0 => 0
  | f + 1 =>
    match cs with
    | [] => 0
    | _ :: rest =>
      match citAt cs with
      | some n => 1 + citScanCount f (cs.drop n)
      | none => citScanCount f rest

def citationsCount (text : String) : Nat := citScanCount text.data.length text.data

/-- Matches of `/"[^"]{20,}"/g`: a quote, at least 20 non-quote characters,
the closing quote; on failure the engine advances one position. -/
def quoteSpans (fuel : Nat) (cs : List Char) : List (List Char) :=
  match fuel with
  | 0 => []
  | f + 1 =>
    match cs with
    | [] => []
    | c :: rest =>
      if c = '"' then
        let run := rest.takeWhile (· ≠ '"')
        match rest.drop run.length with
        | '"' :: rem2 =>
          if 20 ≤ run.length then ('"' :: (run ++ ['"'])) :: quoteSpans f rem2
          else quoteSpans f rest
        | _ => quoteSpans f rest
      else quoteSpans f rest

def quoteSpansOf (text : List Char) : List (List Char) := quoteSpans text.length text

/-- `,\s*pp?\.\s*\d+` at the head (existence only). -/
def pageMarkTail (cs : List Char) : Bool :=
  match cs with
  | ',' :: rest =>
    (match rest.dropWhile jsIsWs with
     | 'p' :: 'p' :: '.' :: r2 =>
       (match r2.dropWhile jsIsWs with
        | d :: _ => isDigit09 d
        | [] => false)
     | 'p' :: '.' :: r2 =>
       (match r2.dropWhile jsIsWs with
        | d :: _ => isDigit09 d
        | [] => false)
     | _ => false)
  | _ => false

/-- `[^)]*` then `pageMarkTail` (existence). -/
def yearSeg2 (fuel : Nat) (cs : List Char) : Bool :=
  pageMarkTail cs ||
    (match fuel, cs with
     | f + 1, c :: rest => c ≠ ')' && yearSeg2 f rest
     | _, _ => false)

/-- `,\s*\d{4}` then `[^)]*,\s*pp?\.\s*\d+` (existence). -/
def yearSeg1 (cs : List Char) : Bool :=
  match cs with
  | ',' :: rest =>
    let afterW := rest.dropWhile jsIsWs
    digits4 afterW && yearSeg2 afterW.length (afterW.drop 4)
  | _ => false

/-- Continuation of `[^)]+` before the year comma (existence). -/
def authSeg (fuel : Nat) (cs : List Char) : Bool :=
  yearSeg1 cs ||
    (match fuel, cs with
     | f + 1, c :: rest => c ≠ ')' && authSeg f rest
     | _, _ => false)

/-- Scanner for `/^\s*\([^)]+,\s*\d{4}[^)]*,\s*pp?\.\s*\d+/` applied to the
50-character window after a quote. -/
def anchorCitTest (cs : List Char) : Bool :=
  match cs.dropWhile jsIsWs with
  | '(' :: c :: rest => c ≠ ')' && authSeg rest.length rest
  | _ => false

/-- The quote loop of `validateCitations`: each matched span is located with
`text.indexOf(quote)` (first occurrence of the span string) and the next 50
characters are tested for a page-marked citation. -/
def quotesWithoutPages (text : List Char) : Nat :=
  (quoteSpansOf text).foldl (fun acc q =>
    match findCS q text with
    | some qi =>
      let afterQuote := (text.drop (qi + q.length)).take 50
      if anchorCitTest afterQuote then acc else acc + 1
    | none => acc) 0

/-- `APAValidator.validateCitations` (destructures `{ text }`). -/
def citationsPass (n : Nat) : PassItem :=
  { message := "Found " ++ toString n ++ " properly formatted citation(s)"
    details := "Citations follow APA author-date format" }

/-- The server-side quote issue (severity `error`); the message carries the
count. -/
def quotesIssue (n : Nat) : Issue :=
  { id := "quotes-missing-pages", severity := .error
    message := toString n ++ " direct quote(s) missing page numbers"
    details := "All direct quotes must include page numbers: (Author, Year, p. #)" }

def validateCitations (text : String) (r : Results) : Results :=
  let citations := citationsCount text
  let r := if 0 < citations then r.addPass (citationsPass citations) else r
  let qwp := quotesWithoutPages text.data
  if 0 < qwp then r.addIssue (quotesIssue qwp) else r

/-- Stop alternative `\n\s*Appendix` of the references regex. -/
def stopRefs (cs : List Char) : Bool :=
  match cs with
  | '\n' :: rest => ciLeadsWith "appendix".data (rest.dropWhile jsIsWs)
  | _ => false

/-- Capture group of `/References\s*([\s\S]*?)(?:\n\s*Appendix|$)/i`. -/
def findReferences (text : String) : Option String :=
  findSection "references".data stopRefs text.data

/-- The line-accumulation loop of `APAValidator.parseReferences`. -/
def parseRefsGo : List (List Char) → List Char → List String → List String
  | [], currentRef, acc =>
    if 30 < (jsTrimL currentRef).length then acc ++ [⟨jsTrimL currentRef⟩] else acc
  | line :: rest, currentRef, acc =>
    let trimmed := jsTrimL line
    if !trimmed.isEmpty &&
        (match trimmed with
         | c :: _ => isUpperAZ c
         | [] => false) && 30 < currentRef.length then
      parseRefsGo rest trimmed (acc ++ [⟨jsTrimL currentRef⟩])
    else if !trimmed.isEmpty then parseRefsGo rest (currentRef ++ ' ' :: trimmed) acc
    else parseRefsGo rest currentRef acc

def parseReferences (referencesText : String) : List String :=
  parseRefsGo (splitNl referencesText.data) [] []

/-- `/^([^(,]+)/` on a reference entry: the longest prefix free of `(` and
`,`, trimmed and lowercased; `''` when the entry starts with one of those. -/
def refAuthorKey (ref : String) : String :=
  let pre := ref.data.takeWhile (fun c => c ≠ '(' && c ≠ ',')
  if pre.isEmpty then "" else lowerS (jsTrim ⟨pre⟩)

def pairwiseNondec : List String → Bool
  | [] => true
  | [_] => true
  | a :: b :: rest => !jsStrLt b a && pairwiseNondec (b :: rest)

/-- `APAValidator.checkAlphabeticalOrder`. -/
def checkAlphabeticalOrder (references : List String) : Bool :=
  pairwiseNondec (references.map refAuthorKey)

/-- `APAValidator.validateReferences` (destructures `{ text }`). -/
def refsFoundPass : PassItem :=
  { message := "References section found"
    details := "Document includes a references section" }

def refsCountPass (n : Nat) : PassItem :=
  { message := "Found " ++ toString n ++ " reference(s)"
    details := "References section contains bibliography entries" }

def refsAlphaPass : PassItem :=
  { message := "References are in alphabetical order"
    details := "Reference list follows APA alphabetization requirements" }

def refsNotAlphaIssue : Issue :=
  { id := "references-not-alphabetical", severity := .error
    message := "References are not in alphabetical order"
    details := "Sort references alphabetically by first author\x27s last name" }

def refsMissingIssue : Issue :=
  { id := "references-missing", severity := .error
    message := "References section not found"
    details := "Document must include a References section" }

def validateReferences (text : String) (r : Results) : Results :=
  match findReferences text with
  | some body =>
    let r := r.addPass refsFoundPass
    let references := parseReferences (jsTrim body)
    if 0 < references.length then
      let r := r.addPass (refsCountPass references.length)
      if checkAlphabeticalOrder references then r.addPass refsAlphaPass
      else r.addIssue refsNotAlphaIssue
    else r
  | none => r.addIssue refsMissingIssue

/-! ## Score aggregation and the document entry point -/

def severityCount (issues : List Issue) (s : Severity) : Nat :=
  (issues.filter (fun i => i.severity = s)).length

/-- `Math.max(0, 100 - errors*15 - warnings*8 - suggestions*3)`. -/
def computeScore (issues : List Issue) : Int :=
  max 0 (100 - 15 * (severityCount issues .error : Int)
            - 8 * (severityCount issues .warning : Int)
            - 3 * (severityCount issues .suggestion : Int))

/-- `APAValidator.validateDocument`: open the archive, derive the structure,
run the six validators in order, compute the score; a parse failure is
wrapped and re-thrown (`Except.error`). -/
def validateDocument (buffer : BufferParse) (filename : String) : Except String Results :=
  match buffer with
  | .fail msg => .error ("Document parsing failed: " ++ msg)
  | .ok z =>
    let ds := parseDocxStructure z
    let r := Results.init filename
    let r := validateGeneralFormatting ds.fontInfo ds.spacingInfo ds.pageNumbers r
    let r := validateTitlePage ds.text r
    let r := validateAbstract ds.text r
    let r := validateHeadings ds.headings r
    let r := validateCitations ds.text r
    let r := validateReferences ds.text r
    .ok { r with score := computeScore r.issues }

/-- Response of the HTTP `handler` after a file passed the upload checks:
`res.status(200).json(results)` on success, and the catch-all
`res.status(500).json({ error: 'Failed to validate document' })` when
`validateDocument` throws. -/
inductive HandlerOut where
  | success (status : Nat) (r : Results)
  | failure (status : Nat) (errorMsg : String)
  deriving DecidableEq, Repr

def handlerRespond (buffer : BufferParse) (filename : String) : HandlerOut :=
  match validateDocument buffer filename with
  | .ok results => .success 200 results
  | .error _ => .failure 500 "Failed to validate document"

/-! ## Client-side validator (`ClientAPAValidator` in `src/pages/index.js`)

The class stores `this.documentXml` / `this.stylesXml` in `analyze`; this
instance state is modelled explicitly and threaded through `Client.analyze`. -/

/-- The two instance fields of `ClientAPAValidator` (undefined before the
first `analyze` call). -/
structure ClientState where
  documentXml : Option String
  stylesXml : Option String
  deriving DecidableEq, Repr

/-- Argument record of `ClientAPAValidator.analyze`. -/
structure DocData where
  text : String
  html : String
  documentXml : String
  stylesXml : String
  filename : String
  deriving DecidableEq, Repr

structure ClientDebug where
  textLength : Nat
  font : String
  headings : Nat
  citations : Nat
  documentPreview : String
  deriving DecidableEq, Repr

structure ClientResults where
  filename : String
  issues : List Issue
  passing : List PassItem
  score : Int
  debug : ClientDebug
  deriving DecidableEq, Repr

def ClientResults.addPass (r : ClientResults) (p : PassItem) : ClientResults :=
  { r with passing := r.passing ++ [p] }

def ClientResults.addIssue (r : ClientResults) (i : Issue) : ClientResults :=
  { r with issues := r.issues ++ [i] }

/-- A heading extracted by `ClientAPAValidator.extractHeadingsFromXML`. -/
structure ClientHeading where
  text : String
  level : Nat
  isBold : Bool
  isCentered : Bool
  rawXml : String
  deriving DecidableEq, Repr

namespace Client

/-- Scanner for `/w:ascii="([^"]+)"/i`: first occurrence with a nonempty
quote-free value followed by a closing quote. -/
def fontScan : List Char → Option String
  | [] => none
  | c :: rest =>
    if ciLeadsWith "w:ascii=\"".data (c :: rest) then
      let after := (c :: rest).drop 9
      let v := after.takeWhile (· ≠ '"')
      match after.drop v.length with
      | '"' :: _ => if v.isEmpty then fontScan rest else some ⟨v⟩
      | _ => fontScan rest
    else fontScan rest

/-- `ClientAPAValidator.detectFont`. -/
def detectFont (stylesXml documentXml : String) : String :=
  (fontScan (stylesXml ++ documentXml).data).getD "Unknown"

/-- `[a-z]?` (preferred present) then `\)` for the client citation regex. -/
def clientAfterYear (cs : List Char) : Option Nat :=
  match cs with
  | c :: rest =>
    if isLowerAZ c then ((closeParen rest).map (· + 1)) <|> closeParen cs
    else closeParen cs
  | [] => none

def clientYearTail (cs : List Char) : Option Nat :=
  let w := cs.takeWhile jsIsWs
  let afterW := cs.drop w.length
  if digits4 afterW then (clientAfterYear (afterW.drop 4)).map (fun n => w.length + 4 + n)
  else none

def clientAuthorSplit : Nat → List Char → Option Nat
  | 0, _ => none
  | k + 1, cs =>
    (match cs.drop (k + 1) with
     | ',' :: rest => (clientYearTail rest).map (fun n => (k + 1) + 1 + n)
     | _ => none) <|> clientAuthorSplit k cs

/-- Match of `/\([A-Za-z\s&,.-]+,\s*\d{4}[a-z]?\)/` at the current position. -/
def clientCitAt (cs : List Char) : Option Nat :=
  match cs with
  | '(' :: rest => (clientAuthorSplit (rest.takeWhile citClassChar).length rest).map (· + 1)
  | _ => none

def clientCitCount (fuel : Nat) (cs : List Char) : Nat :=
  match fuel with
  | 0 => 0
  | f + 1 =>
    match cs with
    | [] => 0
    | _ :: rest =>
      match clientCitAt cs with
      | some n => 1 + clientCitCount f (cs.drop n)
      | none => clientCitCount f rest

/-- `ClientAPAValidator.countCitations`. -/
def countCitations (text : String) : Nat := clientCitCount text.data.length text.data

def lineClean (l : List Char) : Bool := l.all (fun c => c ≠ '.' && c ≠ '!' && c ≠ '?')

def lineUpperStart (l : List Char) : Bool :=
  match l with
  | c :: _ => isUpperAZ c
  | [] => false

/-- Match count of `/^[A-Z][^.!?]*$/gm`: `[^.!?]` crosses newlines, so one
match covers a maximal block of sentence-mark-free lines starting at an
uppercase-initial line; scanning resumes at the first line with a sentence
mark. -/
def p1Count (fuel : Nat) (ls : List (List Char)) : Nat :=
  match fuel with
  | 0 => 0
  | f + 1 =>
    match ls with
    | [] => 0
    | l :: rest =>
      if lineUpperStart l && lineClean l then 1 + p1Count f (rest.dropWhile lineClean)
      else p1Count f rest

def p2Toks : List (List Char) :=
  ["introduction".data, "method".data, "results".data, "discussion".data,
   "conclusion".data]

/-- Match count of `/Introduction|Method|Results|Discussion|Conclusion/gi`
(alternatives tried in order, non-overlapping). -/
def p2Count (fuel : Nat) (cs : List Char) : Nat :=
  match fuel with
  | 0 => 0
  | f + 1 =>
    match cs with
    | [] => 0
    | _ :: rest =>
      match firstSome (p2Toks.map (fun t => if ciLeadsWith t cs then some t.length else none)) with
      | some n => 1 + p2Count f (cs.drop n)
      | none => p2Count f rest

/-- `ClientAPAValidator.countHeadings` (capped at 10). -/
def countHeadings (text : String) : Nat :=
  min (p1Count (text.data.length + 1) (splitNl text.data)
        + p2Count text.data.length text.data) 10

/-- `ClientAPAValidator.validateFont`: family-only check, `warning` issue,
silent when no font was detected. -/
def validateFont (stylesXml documentXml : String) (r : ClientResults) : ClientResults :=
  let font := detectFont stylesXml documentXml
  let acceptable := ["Times New Roman", "Calibri", "Arial", "Georgia",
                     "Lucida Sans Unicode"]
  let isAcceptable := acceptable.any (fun a => jsIncludes (lowerS font) (lowerS a))
  if isAcceptable then
    r.addPass { message := "✅ Font detected: " ++ font
                details := "Font appears to meet APA requirements" }
  else if font ≠ "Unknown" then
    r.addIssue { id := "font-issue", severity := .warning
                 message := "Font \"" ++ font ++ "\" may not be APA compliant"
                 details := "APA 7 recommends Times New Roman 12pt, Calibri 11pt, Arial 11pt, Georgia 11pt, or Lucida Sans Unicode 10pt" }
  else r

def spacingCliPass : PassItem :=
  { message := "✅ Double spacing detected"
    details := "Document appears to use proper line spacing" }

/-- The client-side spacing issue (severity `suggestion`): spacing could not
be verified. -/
def spacingCliIssue : Issue :=
  { id := "spacing-issue", severity := .suggestion
    message := "Document spacing cannot be verified"
    details := "Ensure document is double-spaced throughout" }

/-- The double-spacing markers probed by `ClientAPAValidator.validateSpacing`. -/
def hasDoubleSpacingMarkers (html documentXml : String) : Bool :=
  jsIncludes html "line-height:2"
    || jsIncludes html "line-height: 2" || jsIncludes documentXml "w:line=\"480\""

/-- `ClientAPAValidator.validateSpacing`: `suggestion` issue when no marker is
found. -/
def validateSpacing (html documentXml : String) (r : ClientResults) : ClientResults :=
  if hasDoubleSpacingMarkers html documentXml then r.addPass spacingCliPass
  else r.addIssue spacingCliIssue

/-- `ClientAPAValidator.validateTitlePage` (first 1000 characters). -/
def validateTitlePage (text : String) (r : ClientResults) : ClientResults :=
  let firstPage := jsSubstring text 0 1000
  let r := if 50 < (jsTrim firstPage).length then
      r.addPass { message := "✅ Title page content found"
                  details := "Document has content that appears to be a title page" }
    else r
  let hasAuthor := anyLineStart namePatAt firstPage.data
    || containsCI firstPage "Author" || byPatScan firstPage.data
  let r := if hasAuthor then
      r.addPass { message := "✅ Author information detected"
                  details := "Title page appears to include author information" }
    else
      r.addIssue { id := "author-missing", severity := .warning
                   message := "Author information may be missing"
                   details := "Title page should include author name(s)" }
  let hasInstitution := containsCI firstPage "university"
    || containsCI firstPage "college" || containsCI firstPage "school"
  if hasInstitution then
    r.addPass { message := "✅ Institution information found"
                details := "Title page includes institutional affiliation" }
  else
    r.addIssue { id := "institution-missing", severity := .suggestion
                 message := "Institutional affiliation may be missing"
                 details := "Include your university or institution on the title page" }

/-- Stop alternatives of the client abstract regex:
`(?:Keywords?|Introduction|Method|$)`. -/
def stopAbstractCli (cs : List Char) : Bool :=
  ciLeadsWith "keyword".data cs || ciLeadsWith "introduction".data cs
    || ciLeadsWith "method".data cs

/-- `ClientAPAValidator.validateAbstract`: filtered word count, `suggestion`
severity for both too long and too short, `suggestion` issue when absent. -/
def abstractCliFoundPass : PassItem :=
  { message := "✅ Abstract section found"
    details := "Document includes an abstract" }

def abstractCliLenPass (wordCount : Nat) : PassItem :=
  { message := "✅ Abstract length appropriate (" ++ toString wordCount ++ " words)"
    details := "Abstract word count follows APA guidelines" }

/-- The client-side too-long issue (severity `suggestion`). -/
def abstractCliLongIssue (wordCount : Nat) : Issue :=
  { id := "abstract-long", severity := .suggestion
    message := "Abstract is lengthy (" ++ toString wordCount ++ " words)"
    details := "APA recommends 150-250 words for abstracts" }

/-- The client-side too-short issue (severity `suggestion`). -/
def abstractCliShortIssue (wordCount : Nat) : Issue :=
  { id := "abstract-short", severity := .suggestion
    message := "Abstract is brief (" ++ toString wordCount ++ " words)"
    details := "Consider expanding to 150-250 words" }

def abstractCliMissingIssue : Issue :=
  { id := "abstract-missing", severity := .suggestion
    message := "Abstract section not clearly detected"
    details := "Many academic papers benefit from an abstract" }

/-- Capture group of the client regex
`/Abstract\s*([\s\S]*?)(?:Keywords?|Introduction|Method|$)/i`. -/
def findAbstractCli (text : String) : Option String :=
  findSection "abstract".data stopAbstractCli text.data

def validateAbstract (text : String) (r : ClientResults) : ClientResults :=
  match findAbstractCli text with
  | some body =>
    let r := r.addPass abstractCliFoundPass
    let abstractText := jsTrim body
    let wordCount := ((jsSplitWs abstractText).filter (fun w => 0 < w.length)).length
    if 150 ≤ wordCount ∧ wordCount ≤ 250 then r.addPass (abstractCliLenPass wordCount)
    else if 250 < wordCount then r.addIssue (abstractCliLongIssue wordCount)
    else if 50 < wordCount then r.addIssue (abstractCliShortIssue wordCount)
    else r
  | none => r.addIssue abstractCliMissingIssue

def pTagL : List Char := "<w:p".data

def closePTag : List Char := "</w:p>".data

/-- Bodies of `/<w:p[^>]*>([\s\S]*?)<\/w:p>/g` matches (note `<w:p` also
matches `<w:pPr…` openings, as in the source). -/
def paraBodies (fuel : Nat) (cs : List Char) : List (List Char) :=
  match fuel with
  | 0 => []
  | f + 1 =>
    match findCS pTagL cs with
    | none => []
    | some i =>
      let after := cs.drop (i + 4)
      let run := after.takeWhile (· ≠ '>')
      (match after.drop run.length with
       | '>' :: body0 =>
         (match findCS closePTag body0 with
          | some j => (body0.take j) :: paraBodies f (body0.drop (j + 6))
          | none => paraBodies f (cs.drop (i + 1)))
       | _ => paraBodies f (cs.drop (i + 1)))

def styPat : List Char := "<w:pStyle w:val=\"".data

/-- Does the attribute value contain `[Hh]eading`? -/
def headingTokIn : List Char → Bool
  | [] => false
  | c :: rest => ((c = 'H' || c = 'h') && leadsWith "eading".data rest) || headingTokIn rest

/-- Capture of `/<w:pStyle w:val="([^"]*[Hh]eading\d*[^"]*)"/`: the first
`<w:pStyle w:val="` whose quote-delimited value contains `[Hh]eading`. -/
def styleScanVal : List Char → Option (List Char)
  | [] => none
  | c :: rest =>
    if leadsWith styPat (c :: rest) then
      let after := (c :: rest).drop 17
      let v := after.takeWhile (· ≠ '"')
      (match after.drop v.length with
       | '"' :: _ => if headingTokIn v then some v else styleScanVal rest
       | _ => styleScanVal rest)
    else styleScanVal rest

/-- Scanner for `/[Hh]eading\s*(\d+)/` (exact-case `eading`). -/
def clientLvlScan : List Char → Option Nat
  | [] => none
  | c :: rest =>
    if (c = 'H' || c = 'h') && leadsWith "eading".data rest then
      let r2 := (rest.drop 6).dropWhile jsIsWs
      let ds := r2.takeWhile isDigit09
      if ds.isEmpty then clientLvlScan rest else some (digitsToNat ds)
    else clientLvlScan rest

/-- `ClientAPAValidator.extractHeadingLevel`. -/
def extractHeadingLevel (styleName : String) : Nat :=
  (clientLvlScan styleName.data).getD 1

def wtTag : List Char := "<w:t".data

def closeWt : List Char := "</w:t>".data

/-- Contents of `/<w:t[^>]*>([^<]*)<\/w:t>/g` matches within a paragraph
body. -/
def wtScan (fuel : Nat) (cs : List Char) : List (List Char) :=
  match fuel with
  | 0 => []
  | f + 1 =>
    match findCS wtTag cs with
    | none => []
    | some i =>
      let after := cs.drop (i + 4)
      let run := after.takeWhile (· ≠ '>')
      (match after.drop run.length with
       | '>' :: cont0 =>
         let content := cont0.takeWhile (· ≠ '<')
         let rem2 := cont0.drop content.length
         if leadsWith closeWt rem2 then content :: wtScan f (rem2.drop 6)
         else wtScan f (cs.drop (i + 1))
       | _ => wtScan f (cs.drop (i + 1)))

/-- `ClientAPAValidator.extractHeadingsFromXML`. -/
def extractHeadingsFromXML (documentXml : String) : List ClientHeading :=
  (paraBodies (documentXml.data.length + 1) documentXml.data).filterMap (fun body =>
    match styleScanVal body with
    | none => none
    | some v =>
      let level := extractHeadingLevel ⟨v⟩
      let text := strConcat ((wtScan (body.length + 1) body).map (fun l => ⟨l⟩))
      if (jsTrimL text.data).isEmpty then none
      else
        let bodyS : String := ⟨body⟩
        some { text := jsTrim text
               level := level
               isBold := jsIncludes bodyS "<w:b/>" || jsIncludes bodyS "<w:b "
               isCentered := jsIncludes bodyS "w:val=\"center\""
                 || jsIncludes bodyS "jc w:val=\"center\""
               rawXml := ⟨body.take 200⟩ })

/-- Per-heading checks of `ClientAPAValidator.validateHeadings`. -/
def clientHeadingChecks (h : ClientHeading) (index : Nat) (r : ClientResults) : ClientResults :=
  let r := if h.isBold then
      r.addPass { message := "✅ \"" ++ h.text ++ "\" is properly bolded"
                  details := "Level " ++ toString h.level ++ " heading follows APA bold requirement" }
    else
      r.addIssue { id := "heading-not-bold-" ++ toString index, severity := .error
                   message := "\"" ++ h.text ++ "\" should be bold"
                   details := "APA Level " ++ toString h.level ++ " headings must be formatted in bold" }
  if h.level = 1 then
    if h.isCentered then
      r.addPass { message := "✅ Level 1 heading \"" ++ h.text ++ "\" is centered"
                  details := "Centering follows APA Level 1 heading requirements" }
    else
      r.addIssue { id := "heading-not-centered-" ++ toString index, severity := .error
                   message := "Level 1 heading \"" ++ h.text ++ "\" should be centered"
                   details := "APA Level 1 headings must be centered" }
  else
    if h.isCentered then
      r.addIssue { id := "heading-incorrectly-centered-" ++ toString index, severity := .error
                   message := "Level " ++ toString h.level ++ " heading \"" ++ h.text ++ "\" should not be centered"
                   details := "APA Level " ++ toString h.level ++ " headings should be flush left" }
    else
      r.addPass { message := "✅ Level " ++ toString h.level ++ " heading \"" ++ h.text ++ "\" is flush left"
                  details := "Alignment follows APA requirements" }

def foldClientHeadings : List ClientHeading → Nat → ClientResults → ClientResults
  | [], _, r => r
  | h :: rest, i, r => foldClientHeadings rest (i + 1) (clientHeadingChecks h i r)

/-- `ClientAPAValidator.validateHeadings` (reads `this.documentXml || ''`). -/
def validateHeadings (documentXml : String) (r : ClientResults) : ClientResults :=
  let headings := extractHeadingsFromXML documentXml
  if 0 < headings.length then
    let r := r.addPass { message := "✅ Found " ++ toString headings.length ++ " heading(s)"
                         details := "Document uses headings for organization" }
    foldClientHeadings headings 0 r
  else
    r.addIssue { id := "no-headings", severity := .suggestion
                 message := "No APA-style headings detected"
                 details := "Consider using formatted headings to organize content" }

/-- `ClientAPAValidator.validateCitations`: the quote check only runs when at
least one citation was counted. -/
def validateCitations (text : String) (r : ClientResults) : ClientResults :=
  let citationCount := countCitations text
  if 0 < citationCount then
    let r := r.addPass { message := "✅ In-text citations found (" ++ toString citationCount ++ ")"
                         details := "Document includes properly formatted citations" }
    let qwp := quotesWithoutPages text.data
    if 0 < qwp then
      r.addIssue { id := "quotes-no-pages", severity := .error
                   message := toString qwp ++ " quote(s) may be missing page numbers"
                   details := "Direct quotes should include page numbers: (Author, Year, p. #)" }
    else r
  else
    r.addIssue { id := "no-citations", severity := .suggestion
                 message := "No in-text citations detected"
                 details := "Academic papers typically require citations" }

/-- Count of `/\n[A-Z]/g` matches. -/
def nlUpperCount : List Char → Nat
  | '\n' :: c :: rest =>
    if isUpperAZ c then 1 + nlUpperCount rest else nlUpperCount (c :: rest)
  | _ :: rest => nlUpperCount rest
  | [] => 0

/-- `ClientAPAValidator.validateReferences`. -/
def validateReferences (text : String) (r : ClientResults) : ClientResults :=
  match findReferences text with
  | some body =>
    let r := r.addPass { message := "✅ References section found"
                         details := "Document includes a references section" }
    let referencesText := jsTrim body
    if 100 < referencesText.length then
      let referenceCount := nlUpperCount referencesText.data
      r.addPass { message := "✅ References contain entries (~" ++ toString referenceCount ++ ")"
                  details := "References section appears to have bibliography entries" }
    else r
  | none =>
    r.addIssue { id := "references-missing", severity := .warning
                 message := "References section not detected"
                 details := "Academic papers should include a References section" }

/-- `ClientAPAValidator.validatePageNumbers` (case-sensitive `includes`). -/
def validatePageNumbers (documentXml : String) (r : ClientResults) : ClientResults :=
  let hasPageNumbers := jsIncludes documentXml "w:pgNum"
    || jsIncludes documentXml "PAGE" || jsIncludes documentXml "w:fldChar"
  if hasPageNumbers then
    r.addPass { message := "✅ Page numbering detected"
                details := "Document appears to have page numbers" }
  else
    r.addIssue { id := "page-numbers-missing", severity := .suggestion
                 message := "Page numbers may be missing"
                 details := "Include page numbers in the top right corner" }

/-- `ClientAPAValidator.analyze`: stores the XML strings into the instance
fields first, builds the results record with the debug block, runs the eight
validators in order, computes the score. -/
def analyze (st : ClientState) (d : DocData) : ClientState × ClientResults :=
  let st := { documentXml := some d.documentXml, stylesXml := some d.stylesXml : ClientState }
  let r : ClientResults :=
    { filename := d.filename, issues := [], passing := [], score := 0
      debug := { textLength := d.text.length
                 font := detectFont d.stylesXml d.documentXml
                 headings := countHeadings d.text
                 citations := countCitations d.text
                 documentPreview := jsSubstring d.text 0 300 } }
  let r := validateFont d.stylesXml d.documentXml r
  let r := validateSpacing d.html d.documentXml r
  let r := validateTitlePage d.text r
  let r := validateAbstract d.text r
  let r := validateHeadings (jsOrDefault st.documentXml "") r
  let r := validateCitations d.text r
  let r := validateReferences d.text r
  let r := validatePageNumbers d.documentXml r
  (st, { r with score := computeScore r.issues })

end Client

/-! ## Definitions used by the verification statements

Spec-side comparison definitions (written from the claim wording, to be
compared against the source-derived functions above) and concrete inputs for
witnesses and counterexamples. -/

/-- Font acceptance as the claim states it: the family matches an acceptable
pair and the size is within ±1pt (±2 half-points) of that pair's size.  To be
compared with the source's `isAcceptableFont`, which requires exact size
equality. -/
def specFontAccepts (fi : FontInfo) : Bool :=
  acceptableFonts.any (fun p =>
    jsIncludes (lowerS fi.font) (lowerS p.1) &&
      (match fi.sizeHp with
       | some hp => (hp - 2 * p.2).natAbs ≤ 2
       | none => false))

/-- Join a list of strings with a separator between consecutive elements. -/
def joinSep (sep : String) : List String → String
  | [] => ""
  | [s] => s
  | s :: rest => s ++ sep ++ joinSep sep rest

/-- Text extraction as the claim states it: run-text contents joined with a
single space between consecutive nodes.  To be compared with the source's
`extractText`, which concatenates without separator. -/
def specExtractText (doc : WDoc) : String :=
  joinSep " " ((allWt doc).map jsOrEmpty)

/-- `quoteSpans` together with the position of each match. -/
def quoteSpansPos (fuel : Nat) (pos : Nat) (cs : List Char) : List (Nat × List Char) :=
  match fuel with
  | 0 => []
  | f + 1 =>
    match cs with
    | [] => []
    | c :: rest =>
      if c = '"' then
        let run := rest.takeWhile (· ≠ '"')
        match rest.drop run.length with
        | '"' :: rem2 =>
          if 20 ≤ run.length then
            (pos, '"' :: (run ++ ['"'])) :: quoteSpansPos f (pos + run.length + 2) rem2
          else quoteSpansPos f (pos + 1) rest
        | _ => quoteSpansPos f (pos + 1) rest
      else quoteSpansPos f (pos + 1) rest

/-- The quoted-passage count as the claim states it: the 50 characters
immediately following each matched span (at the span's own position) are
checked.  To be compared with `quotesWithoutPages`, which locates each span
with `indexOf` (first occurrence of the span's string). -/
def specQuotesMissing (text : List Char) : Nat :=
  ((quoteSpansPos text.length 0 text).filter (fun pq =>
    !anchorCitTest ((text.drop (pq.1 + pq.2.length)).take 50))).length

/-- The issue delta of `validateIndividualHeading`. -/
def vihDelta (heading : Heading) (index : Nat) : List Issue :=
  if heading.level = 0 ∨ 5 < heading.level then []
  else
    (if heading.level = 1 ∧ ¬heading.isCentered then [headingNotCenteredIssue heading index]
     else []) ++
    (if heading.isBold then [] else [headingNotBoldIssue heading index])

/-- The issue delta of `foldHeadings`. -/
def individualDeltas : List Heading → Nat → List Issue
  | [], _ => []
  | h :: rest, i => vihDelta h i ++ individualDeltas rest (i + 1)

/-- Boolean string-prefix test used in statements about issue ids. -/
def strHasPfx (p s : String) : Bool := leadsWith p.data s.data

/-- A trivially empty parsed package: empty XML parts, no paragraphs, no
style information. -/
def docxZero : Docx :=
  { documentXml := "", stylesXml := "", headerXml := "", footerXml := ""
    doc := { paras := [], spacings := [] }
    styles := { rFontsAscii := none, szVal := none, spacings := [] } }

/-- The report `validateDocument` produces for `docxZero`. -/
def docxZeroReport : Results :=
  { filename := "t.docx"
    issues := [spacingIssueItem, pageNumbersIssueItem, authorMissingIssue,
               institutionMissingIssue, noHeadingsIssue, refsMissingIssue]
    passing := [fontPassItem { font := "Times New Roman", sizeHp := some 24 }]
    score := 29 }

/-- A document text with a 300-word abstract. -/
def longAbstractText : String := "Abstract " ++ strConcat (List.replicate 300 "a ")

/-- A document text with a 200-word abstract. -/
def text200 : String := "Abstract " ++ strConcat (List.replicate 200 "w ")

/-- The abstract body captured from `text200`. -/
def body200 : String := (findAbstract text200).getD ""

/-- A 25-character quoted span followed by a page-marked citation. -/
def quoteOkText : String :=
  "He said \"aaaaaaaaaaaaaaaaaaaaaaaaa\" (Smith, 2020, p. 4) in the paper."

/-- The same quoted span followed by unrelated text. -/
def quoteBadText : String :=
  "He said \"aaaaaaaaaaaaaaaaaaaaaaaaa\" and then continued without citing."

/-- Two identical quoted spans: the first lacks a citation, the second is
followed by a page-marked citation. -/
def dupQuoteText : String :=
  "\"aaaaaaaaaaaaaaaaaaaaaaaaa\" xxxx \"aaaaaaaaaaaaaaaaaaaaaaaaa\" (Smith, 2020, p. 4)"

/-- Two content headings whose levels jump from 1 to 3. -/
def hJump1 : Heading :=
  { text := "Introduction", level := 1, isCentered := true, isBold := true, isItalic := false }

def hJump3 : Heading :=
  { text := "Deep Dive", level := 3, isCentered := false, isBold := true, isItalic := false }

/-- A document text with an alphabetical two-entry references section. -/
def refsOkText : String :=
  "Body text References\nAdams, B. (2020). A very long title about various things.\nBrown, C. (2021). Another very long title about other things."

/-- A two-run document used by the extraction counterexample. -/
def twoRunDoc : WDoc :=
  { paras := [{ pStyleVal := none, wtTexts := [some "Hello", some "World"]
                jcVal := none, hasBold := false, hasItalic := false }]
    spacings := [] }

/-! ## Verification -/

set_option maxRecDepth 100000

theorem string_data_append (a b : String) : (a ++ b).data = a.data ++ b.data := by
  cases a; cases b; rfl

theorem computeScore_nonneg (issues : List Issue) : 0 ≤ computeScore issues :=
  le_max_left 0 _

theorem computeScore_le_hundred (issues : List Issue) : computeScore issues ≤ 100 := by
  unfold computeScore
  apply max_le
  · norm_num
  · have h1 : (0 : Int) ≤ (severityCount issues .error : Int) := Int.natCast_nonneg _
    have h2 : (0 : Int) ≤ (severityCount issues .warning : Int) := Int.natCast_nonneg _
    have h3 : (0 : Int) ≤ (severityCount issues .suggestion : Int) := Int.natCast_nonneg _
    omega

/-- C1: for every validated document — on the server path whenever
`validateDocument` returns a report, and on the client path for every
`analyze` call — the report's score equals
`max(0, 100 − 15·errors − 8·warnings − 3·suggestions)` computed over the
report's own issues list, and is therefore an integer in `[0, 100]`. -/
theorem score_weighted_clamp :
  (∀ (buffer : BufferParse) (filename : String) (r : Results),
    validateDocument buffer filename = Except.ok r →
      r.score = max 0 (100
          - 15 * ((r.issues.filter (fun i => i.severity = Severity.error)).length : Int)
          - 8 * ((r.issues.filter (fun i => i.severity = Severity.warning)).length : Int)
          - 3 * ((r.issues.filter (fun i => i.severity = Severity.suggestion)).length : Int))
        ∧ 0 ≤ r.score ∧ r.score ≤ 100) ∧
  (∀ (st : ClientState) (d : DocData),
    ((Client.analyze st d).2).score = max 0 (100
        - 15 * ((((Client.analyze st d).2).issues.filter (fun i => i.severity = Severity.error)).length : Int)
        - 8 * ((((Client.analyze st d).2).issues.filter (fun i => i.severity = Severity.warning)).length : Int)
        - 3 * ((((Client.analyze st d).2).issues.filter (fun i => i.severity = Severity.suggestion)).length : Int))
      ∧ 0 ≤ ((Client.analyze st d).2).score ∧ ((Client.analyze st d).2).score ≤ 100) := by
  constructor
  · intro buffer filename r h
    cases buffer with
    | fail msg => simp [validateDocument] at h
    | ok z =>
      simp only [validateDocument] at h
      injection h with h'
      subst h'
      exact ⟨rfl, computeScore_nonneg _, computeScore_le_hundred _⟩
  · intro st d
    exact ⟨rfl, computeScore_nonneg _, computeScore_le_hundred _⟩

/-- Witness for C1: the empty package produces the concrete report
`docxZeroReport`, whose score satisfies the clamped formula and the bounds. -/
theorem score_weighted_clamp_witness :
  docxZeroReport.score = max 0 (100
      - 15 * ((docxZeroReport.issues.filter (fun i => i.severity = Severity.error)).length : Int)
      - 8 * ((docxZeroReport.issues.filter (fun i => i.severity = Severity.warning)).length : Int)
      - 3 * ((docxZeroReport.issues.filter (fun i => i.severity = Severity.suggestion)).length : Int))
    ∧ 0 ≤ docxZeroReport.score ∧ docxZeroReport.score ≤ 100 :=
  score_weighted_clamp.1 (.ok docxZero) "t.docx" docxZeroReport (by rfl)

/-- C2 (counterexample): at the concrete malformed buffer, `validateDocument`
raises a wrapped parse error to the caller — it does not return a degraded
report with one error finding and `score = 0` as the claim states. -/
theorem malformed_counterexample :
  validateDocument (BufferParse.fail "Invalid or unsupported zip format") "broken.docx"
    = Except.error "Document parsing failed: Invalid or unsupported zip format" := rfl

/-- C2 (amended): for every buffer that is not a valid archive (or whose main
document part is unreadable), `validateDocument` re-raises the failure
wrapped as `Document parsing failed: …`, and the HTTP handler catches it and
responds `500` with a generic error body and no report. -/
theorem malformed_raises_amended (msg filename : String) :
  validateDocument (BufferParse.fail msg) filename
      = Except.error ("Document parsing failed: " ++ msg) ∧
  handlerRespond (BufferParse.fail msg) filename
      = HandlerOut.failure 500 "Failed to validate document" := ⟨rfl, rfl⟩

/-- C8: validating the same input twice yields identical reports.  The only
cross-call state in the cited code is the pair of instance fields of
`ClientAPAValidator`, modelled in `ClientState`: the report is independent of
the incoming state (the fields are overwritten from the input before any
read), and re-running `analyze` on its own output state reproduces the same
state and report.  The server validator has no instance fields, so
`validateDocument` is a pure function of `(buffer, filename)` by
construction. -/
theorem analyze_deterministic (s₁ s₂ : ClientState) (d : DocData) :
  (Client.analyze s₁ d).2 = (Client.analyze s₂ d).2 ∧
  Client.analyze (Client.analyze s₁ d).1 d = Client.analyze s₁ d := ⟨rfl, rfl⟩

theorem extractTextLoop_concat (ts : List (Option String)) (acc : String) :
  extractTextLoop ts acc = acc ++ strConcat (ts.map jsOrEmpty) := by
  induction ts generalizing acc with
  | nil => simp [extractTextLoop, strConcat, String.append_empty]
  | cons t ts ih => simp [extractTextLoop, strConcat, ih, String.append_assoc]

/-- C5 (amended): the extracted text equals the concatenation of all run-text
(`w:t`) node contents in document order with no separator between them. -/
theorem extract_text_amended (doc : WDoc) :
  extractText doc = strConcat ((allWt doc).map jsOrEmpty) := by
  have h := extractTextLoop_concat (allWt doc) ""
  simpa [String.empty_append] using h

/-- C5 (counterexample): two run-text nodes `Hello` and `World` extract to
`HelloWorld`; the claim's space-joined reading would give `Hello World`. -/
theorem extract_text_counterexample :
  extractText twoRunDoc = "HelloWorld" ∧ specExtractText twoRunDoc = "Hello World" ∧
  extractText twoRunDoc ≠ specExtractText twoRunDoc := by decide

theorem validateGeneralFormatting_run (fi : FontInfo) (sp : SpacingInfo) (pg : Bool)
    (r : Results) :
    validateGeneralFormatting fi sp pg r =
      { r with
        passing := r.passing ++
          ((if isAcceptableFont fi then [fontPassItem fi] else []) ++
           (if sp.isDoubleSpaced then [spacingPassItem] else []) ++
           (if pg then [pageNumbersPassItem] else []))
        issues := r.issues ++
          ((if isAcceptableFont fi then [] else [fontIssueItem fi]) ++
           (if sp.isDoubleSpaced then [] else [spacingIssueItem]) ++
           (if pg then [] else [pageNumbersIssueItem])) } := by
  cases hf : isAcceptableFont fi <;> cases hs : sp.isDoubleSpaced <;> cases hp : pg <;>
    simp [validateGeneralFormatting, Results.addPass, Results.addIssue, hf, hs, hp]

/-- C3 (amended): the font rule passes exactly when the lowercased detected
family contains one of the acceptable family names and the detected size
equals that pair's size exactly (no ±1pt tolerance); otherwise it emits the
issue `font-incorrect` of severity `error` (not `warning`).  In particular
Times New Roman at exactly 12pt passes and Comic Sans at 12pt does not.
(The client-side variant checks only the family and uses severity `warning`.) -/
theorem font_rule_amended (fi : FontInfo) (sp : SpacingInfo) (pg : Bool) (fn : String) :
  ((validateGeneralFormatting fi sp pg (Results.init fn)).passing =
     (if isAcceptableFont fi then [fontPassItem fi] else []) ++
     (if sp.isDoubleSpaced then [spacingPassItem] else []) ++
     (if pg then [pageNumbersPassItem] else [])) ∧
  ((validateGeneralFormatting fi sp pg (Results.init fn)).issues =
     (if isAcceptableFont fi then [] else [fontIssueItem fi]) ++
     (if sp.isDoubleSpaced then [] else [spacingIssueItem]) ++
     (if pg then [] else [pageNumbersIssueItem])) ∧
  (fontIssueItem fi).severity = Severity.error ∧
  (isAcceptableFont fi = true ↔ ∃ p, p ∈ acceptableFonts ∧
     jsIncludes (lowerS fi.font) (lowerS p.1) = true ∧ fi.sizeHp = some (2 * p.2)) ∧
  isAcceptableFont { font := "Times New Roman", sizeHp := some 24 } = true ∧
  isAcceptableFont { font := "Comic Sans", sizeHp := some 24 } = false := by
  refine ⟨?_, ?_, rfl, ?_, by decide, by decide⟩
  · rw [validateGeneralFormatting_run]; simp [Results.init]
  · rw [validateGeneralFormatting_run]; simp [Results.init]
  · simp [isAcceptableFont, List.any_eq_true, Bool.and_eq_true, decide_eq_true_eq]

/-- C3 (counterexample): Times New Roman at 13pt is within the claimed ±1pt
tolerance (`specFontAccepts` is true), yet the code emits the font issue with
severity `error` and no font pass; the issue severity is `error`, not the
`warning` the claim states. -/
theorem font_rule_counterexample :
  specFontAccepts { font := "Times New Roman", sizeHp := some 26 } = true ∧
  ((validateGeneralFormatting { font := "Times New Roman", sizeHp := some 26 }
      { isDoubleSpaced := true } true (Results.init "x")).issues.map
      (fun i => (i.id, i.severity))) = [("font-incorrect", Severity.error)] ∧
  (validateGeneralFormatting { font := "Times New Roman", sizeHp := some 26 }
      { isDoubleSpaced := true } true (Results.init "x")).passing.length = 2 ∧
  Severity.error ≠ Severity.warning := by decide

/-- C4 (amended): the server spacing rule emits a passing finding when
`isDoubleSpaced` holds and otherwise the issue `spacing-incorrect` of
severity `error` stating the document is not double-spaced; the client-side
variant emits a passing finding when a marker is found and otherwise the
issue `spacing-issue` of severity `suggestion` stating the spacing is
unverifiable. -/
theorem spacing_rule_amended (fi : FontInfo) (sp : SpacingInfo) (pg : Bool) (r : Results) :
  (sp.isDoubleSpaced = true →
     spacingPassItem ∈ (validateGeneralFormatting fi sp pg r).passing ∧
     ∀ f ∈ (validateGeneralFormatting fi sp pg r).issues,
       f ∈ r.issues ∨ f.id ≠ "spacing-incorrect") ∧
  (sp.isDoubleSpaced = false →
     spacingIssueItem ∈ (validateGeneralFormatting fi sp pg r).issues ∧
     spacingIssueItem.severity = Severity.error) ∧
  (∀ (html docXml : String) (cr : ClientResults),
     (Client.hasDoubleSpacingMarkers html docXml = true →
        Client.validateSpacing html docXml cr = cr.addPass Client.spacingCliPass) ∧
     (Client.hasDoubleSpacingMarkers html docXml = false →
        Client.validateSpacing html docXml cr = cr.addIssue Client.spacingCliIssue)) ∧
  Client.spacingCliIssue.severity = Severity.suggestion := by
  refine ⟨?_, ?_, ?_, rfl⟩
  · intro hs
    rw [validateGeneralFormatting_run]
    constructor
    · simp [hs]
    · intro f hf
      simp only [hs] at hf
      rcases List.mem_append.mp hf with h | h
      · exact Or.inl h
      · right
        rcases List.mem_append.mp h with h' | h'
        · rcases List.mem_append.mp h' with h'' | h''
          · rcases hf2 : isAcceptableFont fi <;> simp [hf2] at h'' <;>
              simp [h'', fontIssueItem]
          · simp at h''
        · rcases hp2 : pg <;> simp [hp2] at h' <;> simp [h', pageNumbersIssueItem]
  · intro hs
    rw [validateGeneralFormatting_run]
    exact ⟨by simp [hs], rfl⟩
  · intro html docXml cr
    constructor
    · intro h; simp [Client.validateSpacing, h]
    · intro h; simp [Client.validateSpacing, h]

/-- Witness for C4 at a concrete non-double-spaced structure. -/
theorem spacing_rule_witness :
  spacingIssueItem ∈ (validateGeneralFormatting { font := "Times New Roman", sizeHp := some 24 }
      { isDoubleSpaced := false } true (Results.init "wit")).issues ∧
  spacingIssueItem.severity = Severity.error :=
  (spacing_rule_amended { font := "Times New Roman", sizeHp := some 24 }
      { isDoubleSpaced := false } true (Results.init "wit")).2.1 rfl

/-- C4 (counterexample): at a structure that is not double-spaced, the server
emits the spacing issue with severity `error`, not the `suggestion` the claim
states, and its message says the document is not double-spaced rather than
that spacing is unverifiable. -/
theorem spacing_rule_counterexample :
  ((validateGeneralFormatting { font := "Times New Roman", sizeHp := some 24 }
      { isDoubleSpaced := false } true (Results.init "x")).issues.map
      (fun i => (i.id, i.severity))) = [("spacing-incorrect", Severity.error)] ∧
  Severity.error ≠ Severity.suggestion ∧
  spacingIssueItem.message = "Document is not double-spaced" := by decide

/-- C6 (amended): with the naive whitespace-split word count `w` of the
abstract body, the server rule passes for `w ∈ [150, 250]`, emits
`abstract-too-long` of severity `warning` (not `suggestion`) for `w > 250`,
emits `abstract-too-short` of severity `suggestion` for `50 < w < 150`, and
emits no length finding for `w ≤ 50`; the client-side variant uses severity
`suggestion` for both length issues (with an empty-word filter in its
count). -/
theorem abstract_length_amended (text body : String) (h : findAbstract text = some body)
    (r : Results) :
  (150 ≤ (jsSplitWs (jsTrim body)).length ∧ (jsSplitWs (jsTrim body)).length ≤ 250 →
     (validateAbstract text r).issues = r.issues ∧
     (validateAbstract text r).passing =
       r.passing ++ [abstractFoundPass, abstractLenPass (jsSplitWs (jsTrim body)).length]) ∧
  (250 < (jsSplitWs (jsTrim body)).length →
     (validateAbstract text r).issues =
       r.issues ++ [abstractTooLongIssue (jsSplitWs (jsTrim body)).length] ∧
     (abstractTooLongIssue (jsSplitWs (jsTrim body)).length).severity = Severity.warning ∧
     (validateAbstract text r).passing = r.passing ++ [abstractFoundPass]) ∧
  (50 < (jsSplitWs (jsTrim body)).length ∧ (jsSplitWs (jsTrim body)).length < 150 →
     (validateAbstract text r).issues =
       r.issues ++ [abstractTooShortIssue (jsSplitWs (jsTrim body)).length] ∧
     (abstractTooShortIssue (jsSplitWs (jsTrim body)).length).severity = Severity.suggestion ∧
     (validateAbstract text r).passing = r.passing ++ [abstractFoundPass]) ∧
  ((jsSplitWs (jsTrim body)).length ≤ 50 →
     (validateAbstract text r).issues = r.issues ∧
     (validateAbstract text r).passing = r.passing ++ [abstractFoundPass]) ∧
  (∀ (ctext cbody : String) (cr : ClientResults),
     Client.findAbstractCli ctext = some cbody →
     (250 < ((jsSplitWs (jsTrim cbody)).filter (fun w => 0 < w.length)).length →
        (Client.validateAbstract ctext cr).issues = cr.issues ++
          [Client.abstractCliLongIssue
            ((jsSplitWs (jsTrim cbody)).filter (fun w => 0 < w.length)).length] ∧
        (Client.abstractCliLongIssue
          ((jsSplitWs (jsTrim cbody)).filter (fun w => 0 < w.length)).length).severity
          = Severity.suggestion) ∧
     (50 < ((jsSplitWs (jsTrim cbody)).filter (fun w => 0 < w.length)).length ∧
        ((jsSplitWs (jsTrim cbody)).filter (fun w => 0 < w.length)).length < 150 →
        (Client.validateAbstract ctext cr).issues = cr.issues ++
          [Client.abstractCliShortIssue
            ((jsSplitWs (jsTrim cbody)).filter (fun w => 0 < w.length)).length] ∧
        (Client.abstractCliShortIssue
          ((jsSplitWs (jsTrim cbody)).filter (fun w => 0 < w.length)).length).severity
          = Severity.suggestion) ∧
     (((jsSplitWs (jsTrim cbody)).filter (fun w => 0 < w.length)).length ≤ 50 →
        (Client.validateAbstract ctext cr).issues = cr.issues)) := by
  refine ⟨?_, ?_, ?_, ?_, ?_⟩
  · intro hw
    simp [validateAbstract, h, hw, Results.addPass]
  · intro hw
    have h1 : ¬(150 ≤ (jsSplitWs (jsTrim body)).length ∧
        (jsSplitWs (jsTrim body)).length ≤ 250) := by omega
    refine ⟨?_, rfl, ?_⟩ <;>
      simp [validateAbstract, h, h1, hw, Results.addPass, Results.addIssue]
  · intro hw
    have h1 : ¬(150 ≤ (jsSplitWs (jsTrim body)).length ∧
        (jsSplitWs (jsTrim body)).length ≤ 250) := by omega
    have h2 : ¬(250 < (jsSplitWs (jsTrim body)).length) := by omega
    have h3 : (jsSplitWs (jsTrim body)).length < 150 ∧
        50 < (jsSplitWs (jsTrim body)).length := ⟨hw.2, hw.1⟩
    refine ⟨?_, rfl, ?_⟩ <;>
      simp [validateAbstract, h, h1, h2, h3, Results.addPass, Results.addIssue]
  · intro hw
    have h1 : ¬(150 ≤ (jsSplitWs (jsTrim body)).length ∧
        (jsSplitWs (jsTrim body)).length ≤ 250) := by omega
    have h2 : ¬(250 < (jsSplitWs (jsTrim body)).length) := by omega
    have h3 : ¬((jsSplitWs (jsTrim body)).length < 150 ∧
        50 < (jsSplitWs (jsTrim body)).length) := by omega
    constructor <;> simp [validateAbstract, h, h1, h2, h3, Results.addPass]
  · intro ctext cbody cr hc
    refine ⟨?_, ?_, ?_⟩
    · intro hw
      have h1 : ¬(150 ≤ ((jsSplitWs (jsTrim cbody)).filter (fun w => 0 < w.length)).length ∧
          ((jsSplitWs (jsTrim cbody)).filter (fun w => 0 < w.length)).length ≤ 250) := by omega
      refine ⟨?_, rfl⟩
      simp [Client.validateAbstract, hc, h1, hw, ClientResults.addPass, ClientResults.addIssue]
    · intro hw
      have h1 : ¬(150 ≤ ((jsSplitWs (jsTrim cbody)).filter (fun w => 0 < w.length)).length ∧
          ((jsSplitWs (jsTrim cbody)).filter (fun w => 0 < w.length)).length ≤ 250) := by omega
      have h2 : ¬(250 < ((jsSplitWs (jsTrim cbody)).filter (fun w => 0 < w.length)).length) := by
        omega
      refine ⟨?_, rfl⟩
      simp [Client.validateAbstract, hc, h1, h2, hw.1, ClientResults.addPass,
        ClientResults.addIssue]
    · intro hw
      have h1 : ¬(150 ≤ ((jsSplitWs (jsTrim cbody)).filter (fun w => 0 < w.length)).length ∧
          ((jsSplitWs (jsTrim cbody)).filter (fun w => 0 < w.length)).length ≤ 250) := by omega
      have h2 : ¬(250 < ((jsSplitWs (jsTrim cbody)).filter (fun w => 0 < w.length)).length) := by
        omega
      have h3 : ¬(50 < ((jsSplitWs (jsTrim cbody)).filter (fun w => 0 < w.length)).length) := by
        omega
      simp [Client.validateAbstract, hc, h1, h2, h3, ClientResults.addPass]

/-- Witness for C6: a concrete 200-word abstract takes the passing branch. -/
theorem abstract_length_witness :
  (validateAbstract text200 (Results.init "w")).issues = (Results.init "w").issues ∧
  (validateAbstract text200 (Results.init "w")).passing =
    (Results.init "w").passing ++
      [abstractFoundPass, abstractLenPass (jsSplitWs (jsTrim body200)).length] :=
  (abstract_length_amended text200 body200 (by rfl) (Results.init "w")).1 (by decide)

/-- C6 (counterexample): a 300-word abstract yields the server issue
`abstract-too-long` with severity `warning`, not the `suggestion` the claim
states. -/
theorem abstract_severity_counterexample :
  ((validateAbstract longAbstractText (Results.init "x")).issues.map
      (fun i => (i.id, i.severity))) = [("abstract-too-long", Severity.warning)] ∧
  Severity.warning ≠ Severity.suggestion := by decide

/-- C7 (amended): the quote rule computes its count by locating each matched
quoted span with `indexOf` — the first occurrence of the span's string — and
testing the 50 characters after that first occurrence; when the count is
positive a single issue `quotes-missing-pages` of severity `error` carrying
the count is emitted, and no issue otherwise.  The claim's two concrete
examples hold: a 25-character quoted span followed by `(Smith, 2020, p. 4)`
contributes no count, and the same span followed by unrelated text counts
once. -/
theorem quotes_rule_amended (text : String) (r : Results) :
  (quotesWithoutPages text.data = 0 → (validateCitations text r).issues = r.issues) ∧
  (0 < quotesWithoutPages text.data →
     (validateCitations text r).issues =
       r.issues ++ [quotesIssue (quotesWithoutPages text.data)] ∧
     (quotesIssue (quotesWithoutPages text.data)).severity = Severity.error) ∧
  quotesWithoutPages quoteOkText.data = 0 ∧
  quotesWithoutPages quoteBadText.data = 1 := by
  refine ⟨?_, ?_, by decide, by decide⟩
  · intro h0
    have h1 : ¬(0 < quotesWithoutPages text.data) := by omega
    by_cases hc : 0 < citationsCount text <;>
      simp [validateCitations, hc, h1, Results.addPass]
  · intro hq
    refine ⟨?_, rfl⟩
    by_cases hc : 0 < citationsCount text <;>
      simp [validateCitations, hc, hq, Results.addPass, Results.addIssue]

/-- Witness for C7: the unrelated-text example emits the error issue with
count 1. -/
theorem quotes_rule_witness :
  (validateCitations quoteBadText (Results.init "w")).issues =
    (Results.init "w").issues ++ [quotesIssue (quotesWithoutPages quoteBadText.data)] ∧
  (quotesIssue (quotesWithoutPages quoteBadText.data)).severity = Severity.error :=
  (quotes_rule_amended quoteBadText (Results.init "w")).2.1 (by decide)

/-- C7 (counterexample): with two identical quoted spans where only the
second is followed by a page-marked citation, the claim's per-occurrence
reading counts 1, but the code's `indexOf` lookup checks both spans at the
first occurrence and counts 2. -/
theorem quotes_indexof_counterexample :
  specQuotesMissing dupQuoteText.data = 1 ∧ quotesWithoutPages dupQuoteText.data = 2 := by
  decide

theorem leadsWith_take : ∀ (a p s : List Char), leadsWith p (a ++ s) = true →
    leadsWith (p.take a.length) a = true := by
  intro a
  induction a with
  | nil => intro p s _; simp [leadsWith]
  | cons b bs ih =>
    intro p s h
    cases p with
    | nil => simp [leadsWith]
    | cons q qs =>
      simp only [List.cons_append, leadsWith, Bool.and_eq_true] at h
      simp only [List.length_cons, List.take_succ_cons, leadsWith, Bool.and_eq_true]
      exact ⟨h.1, ih qs s h.2⟩

theorem notPfx_hnc (n : Nat) :
    strHasPfx "heading-hierarchy-" ("heading-not-centered-" ++ toString n) = false := by
  refine Bool.eq_false_iff.mpr (fun htrue => ?_)
  unfold strHasPfx at htrue
  rw [string_data_append] at htrue
  have h2 := leadsWith_take _ _ _ htrue
  revert h2
  decide

theorem notPfx_hnb (n : Nat) :
    strHasPfx "heading-hierarchy-" ("heading-not-bold-" ++ toString n) = false := by
  refine Bool.eq_false_iff.mpr (fun htrue => ?_)
  unfold strHasPfx at htrue
  rw [string_data_append] at htrue
  have h2 := leadsWith_take _ _ _ htrue
  revert h2
  decide

theorem validateIndividualHeading_issues (h : Heading) (i : Nat) (r : Results) :
    (validateIndividualHeading h i r).issues = r.issues ++ vihDelta h i := by
  simp only [validateIndividualHeading, vihDelta]
  split_ifs <;> simp_all [Results.addPass, Results.addIssue]

theorem foldHeadings_issues (ch : List Heading) : ∀ (i : Nat) (r : Results),
    (foldHeadings ch i r).issues = r.issues ++ individualDeltas ch i := by
  induction ch with
  | nil => intro i r; simp [foldHeadings, individualDeltas]
  | cons h rest ih =>
    intro i r
    simp [foldHeadings, individualDeltas, ih, validateIndividualHeading_issues,
      List.append_assoc]

theorem vihDelta_mem (h : Heading) (i : Nat) :
    ∀ f ∈ vihDelta h i, f = headingNotCenteredIssue h i ∨ f = headingNotBoldIssue h i := by
  intro f hf
  unfold vihDelta at hf
  split_ifs at hf <;> simp_all

theorem individualDeltas_mem (ch : List Heading) : ∀ (i : Nat) (f : Issue),
    f ∈ individualDeltas ch i →
    ∃ h j, f = headingNotCenteredIssue h j ∨ f = headingNotBoldIssue h j := by
  induction ch with
  | nil => intro i f hf; simp [individualDeltas] at hf
  | cons h rest ih =>
    intro i f hf
    simp only [individualDeltas] at hf
    rcases List.mem_append.mp hf with h1 | h1
    · exact ⟨h, i, vihDelta_mem h i f h1⟩
    · exact ih (i + 1) f h1

theorem mem_hierarchyIssues (ch : List Heading) (i : Nat) (h1 : 1 ≤ i) (h2 : i < ch.length)
    (h3 : (ch.getD (i - 1) default).level + 1 < (ch.getD i default).level) :
    mkHierIssue i (ch.getD (i - 1) default) (ch.getD i default) ∈ hierarchyIssues ch := by
  unfold hierarchyIssues
  apply List.mem_filterMap.mpr
  refine ⟨i, List.mem_range'_1.mpr (by omega), ?_⟩
  dsimp only
  rw [if_pos h3]

theorem hierarchyIssues_nil (ch : List Heading)
    (h : ∀ i, 1 ≤ i → i < ch.length →
       (ch.getD i default).level ≤ (ch.getD (i - 1) default).level + 1) :
    hierarchyIssues ch = [] := by
  unfold hierarchyIssues
  apply List.filterMap_eq_nil_iff.mpr
  intro i hi
  have hb := List.mem_range'_1.mp hi
  have hle := h i hb.1 (by omega)
  dsimp only
  rw [if_neg (Nat.not_lt.mpr hle)]

theorem validateHeadings_issues (hs : List Heading) (r : Results) :
    (validateHeadings hs r).issues = r.issues ++
      (if hs.isEmpty then [noHeadingsIssue]
       else if (contentHeadings hs).isEmpty then []
       else hierarchyIssues (contentHeadings hs) ++ individualDeltas (contentHeadings hs) 0) := by
  by_cases h1 : hs.isEmpty
  · simp only [validateHeadings, if_pos h1, Results.addIssue]
  · by_cases h2 : (contentHeadings hs).isEmpty
    · simp only [validateHeadings]
      rw [if_neg h1]
      rw [if_pos h2, if_neg h1, if_pos h2]
      simp
    · simp only [validateHeadings]
      rw [if_neg h1]
      rw [if_neg h2, if_neg h1, if_neg h2]
      rw [foldHeadings_issues]
      simp [Results.addPass, List.append_assoc]

/-- C9: for consecutive content headings (those whose lowercased text is not
`abstract`, `references` or `keywords`), a level jump of more than 1 from the
earlier to the later heading makes `validateHeadings` emit the issue
`heading-hierarchy-<index>` of severity `error` reporting the skipped level
(index = position of the later heading in the content list); when every
consecutive pair increases by at most 1, no issue with that id prefix is
emitted. -/
theorem heading_hierarchy_rule (headings : List Heading) (r : Results) :
  (∀ i, 1 ≤ i → i < (contentHeadings headings).length →
     ((contentHeadings headings).getD (i - 1) default).level + 1 <
        ((contentHeadings headings).getD i default).level →
     mkHierIssue i ((contentHeadings headings).getD (i - 1) default)
        ((contentHeadings headings).getD i default) ∈ (validateHeadings headings r).issues) ∧
  ((∀ i, 1 ≤ i → i < (contentHeadings headings).length →
      ((contentHeadings headings).getD i default).level ≤
        ((contentHeadings headings).getD (i - 1) default).level + 1) →
    ∀ f ∈ (validateHeadings headings r).issues,
      f ∈ r.issues ∨ strHasPfx "heading-hierarchy-" f.id = false) ∧
  (∀ (i : Nat) (a b : Heading), (mkHierIssue i a b).severity = Severity.error ∧
      (mkHierIssue i a b).id = "heading-hierarchy-" ++ toString i) := by
  refine ⟨?_, ?_, fun i a b => ⟨rfl, rfl⟩⟩
  · intro i h1 h2 h3
    rw [validateHeadings_issues]
    have hchne : ¬((contentHeadings headings).isEmpty = true) := by
      have hpos : 0 < (contentHeadings headings).length := by omega
      cases hE : contentHeadings headings with
      | nil => rw [hE] at hpos; simp at hpos
      | cons a l => simp [hE]
    have hhne : ¬(headings.isEmpty = true) := by
      intro hemp
      have : headings = [] := by
        cases headings with
        | nil => rfl
        | cons a l => simp at hemp
      rw [this] at hchne
      exact hchne rfl
    rw [if_neg hhne, if_neg hchne]
    exact List.mem_append.mpr (Or.inr (List.mem_append.mpr
      (Or.inl (mem_hierarchyIssues _ i h1 h2 h3))))
  · intro hno f hf
    rw [validateHeadings_issues] at hf
    rcases List.mem_append.mp hf with h | h
    · exact Or.inl h
    · right
      by_cases h1 : headings.isEmpty
      · rw [if_pos h1] at h
        simp at h
        rw [h]
        decide
      · rw [if_neg h1] at h
        by_cases h2 : (contentHeadings headings).isEmpty
        · rw [if_pos h2] at h
          simp at h
        · rw [if_neg h2, hierarchyIssues_nil _ hno, List.nil_append] at h
          obtain ⟨hh, j, hor⟩ := individualDeltas_mem _ 0 f h
          rcases hor with he | he <;> rw [he]
          · exact notPfx_hnc j
          · exact notPfx_hnb j

/-- Witness for C9: two content headings at levels 1 and 3 produce the
hierarchy issue at content index 1. -/
theorem heading_hierarchy_rule_witness :
  mkHierIssue 1 hJump1 hJump3 ∈ (validateHeadings [hJump1, hJump3] (Results.init "w")).issues :=
  (heading_hierarchy_rule [hJump1, hJump3] (Results.init "w")).1 1 (by decide) (by decide)
    (by decide)

theorem pairwiseNondec_iff : ∀ (l : List String), pairwiseNondec l = true ↔
    ∀ i, i + 1 < l.length → jsStrLt (l.getD (i + 1) "") (l.getD i "") = false := by
  intro l
  induction l with
  | nil => simp [pairwiseNondec]
  | cons a rest ih =>
    cases rest with
    | nil => simp [pairwiseNondec]
    | cons b rest2 =>
      constructor
      · intro h i hi
        simp only [pairwiseNondec, Bool.and_eq_true, Bool.not_eq_true'] at h
        cases i with
        | zero => simpa using h.1
        | succ j =>
          have hj := (ih.mp h.2) j (by simpa using hi)
          simpa using hj
      · intro h
        simp only [pairwiseNondec, Bool.and_eq_true, Bool.not_eq_true']
        refine ⟨?_, ih.mpr ?_⟩
        · simpa using h 0 (by simp)
        · intro j hj
          simpa using h (j + 1) (by simpa using hj)

theorem getD_map_refAuthorKey (l : List String) : ∀ (i : Nat),
    (l.map refAuthorKey).getD i "" = refAuthorKey (l.getD i "") := by
  induction l with
  | nil => intro i; cases i <;> simp [List.getD] <;> rfl
  | cons a rest ih =>
    intro i
    cases i with
    | zero => rfl
    | succ n =>
      rw [List.map_cons, List.getD_cons_succ, List.getD_cons_succ]
      exact ih n

/-- C10: when the text contains a References section whose body parses into
at least one entry, the evaluator emits a passing alphabetical-order finding
when the lowercased leading-author keys (text before the first `(` or `,`) of
the parsed entries are nondecreasing in code-unit order, and otherwise the
issue `references-not-alphabetical` of severity `error`. -/
theorem references_alpha_rule (text body : String) (h : findReferences text = some body)
    (r : Results) :
  (0 < (parseReferences (jsTrim body)).length →
    (checkAlphabeticalOrder (parseReferences (jsTrim body)) = true →
       (validateReferences text r).issues = r.issues ∧
       (validateReferences text r).passing = r.passing ++
         [refsFoundPass, refsCountPass (parseReferences (jsTrim body)).length, refsAlphaPass]) ∧
    (checkAlphabeticalOrder (parseReferences (jsTrim body)) = false →
       (validateReferences text r).issues = r.issues ++ [refsNotAlphaIssue] ∧
       refsNotAlphaIssue.severity = Severity.error ∧
       refsNotAlphaIssue.id = "references-not-alphabetical" ∧
       (validateReferences text r).passing = r.passing ++
         [refsFoundPass, refsCountPass (parseReferences (jsTrim body)).length])) ∧
  (checkAlphabeticalOrder (parseReferences (jsTrim body)) = true ↔
     ∀ i, i + 1 < (parseReferences (jsTrim body)).length →
       jsStrLt (refAuthorKey ((parseReferences (jsTrim body)).getD (i + 1) ""))
               (refAuthorKey ((parseReferences (jsTrim body)).getD i "")) = false) := by
  constructor
  · intro hlen
    constructor
    · intro halpha
      constructor <;>
        simp [validateReferences, h, hlen, halpha, Results.addPass, Results.addIssue]
    · intro halpha
      refine ⟨?_, rfl, rfl, ?_⟩ <;>
        simp [validateReferences, h, hlen, halpha, Results.addPass, Results.addIssue]
  · unfold checkAlphabeticalOrder
    rw [pairwiseNondec_iff]
    constructor
    · intro hh i hi
      have hfact := hh i (by simpa using hi)
      rwa [getD_map_refAuthorKey, getD_map_refAuthorKey] at hfact
    · intro hh i hi
      rw [getD_map_refAuthorKey, getD_map_refAuthorKey]
      exact hh i (by simpa using hi)

/-- Witness for C10: a two-entry alphabetical references section takes the
passing branch. -/
theorem references_alpha_rule_witness :
  (validateReferences refsOkText (Results.init "w")).issues = (Results.init "w").issues ∧
  (validateReferences refsOkText (Results.init "w")).passing = (Results.init "w").passing ++
    [refsFoundPass,
     refsCountPass (parseReferences (jsTrim ((findReferences refsOkText).getD ""))).length,
     refsAlphaPass] :=
  ((references_alpha_rule refsOkText ((findReferences refsOkText).getD "") (by rfl)
      (Results.init "w")).1 (by decide)).1 (by decide)
